import Mathlib

/-!
Shallow embedding of the SFU signaling server in src/server.js.

The server keeps a singleton broadcaster session, a viewer-id-keyed map of
viewer sessions, a per-viewer buffer of ICE candidates that arrived before the
viewer's remote description was set, and a reconnect-grace timer armed when the
broadcaster's channel closes.  Peer connections are modelled as records holding
their closed flag, local/remote descriptions, transceiver list and the ordered
log of addIceCandidate invocations; the wrtc engine's fallible asynchronous
operations (createOffer, setRemoteDescription, addIceCandidate) are modelled
with explicit failure oracles carried on the inbound events.
-/

/-- A media track as delivered by the peer-connection engine: an identity plus
its kind string (the code only inspects kind, comparing against "video"). -/
structure Track where
  tid : Nat
  kind : String
deriving DecidableEq, Repr

/-- An ICE candidate payload; opaque except for an identity used by the
failure oracle of addIceCandidate. -/
structure Candidate where
  cval : Nat
deriving DecidableEq, Repr

/-- Session descriptions are opaque payloads. -/
abbrev Sdp := Nat

/-- Transceiver direction as requested by addTransceiver. -/
inductive Dir where
  | sendonly
  | recvonly
deriving DecidableEq, Repr

/-- A transceiver: a reserved media slot with a direction and an optional
track currently occupying its sender. -/
structure Transceiver where
  direction : Dir
  track : Option Track
deriving DecidableEq, Repr

/-- State of one RTCPeerConnection: closed flag, descriptions, transceivers,
and the ordered logs of addIceCandidate calls (all attempts) and of the
successful ones. -/
structure Pc where
  closed : Bool
  remoteDescription : Option Sdp
  localDescription : Option Sdp
  transceivers : List Transceiver
  addIceCalls : List Candidate
  addIceOk : List Candidate
deriving DecidableEq, Repr

/-- The broadcaster session: its ws channel, its peer connection (by id into
the pc store) and the currently held video track (server.js line 163). -/
structure BroadcasterSession where
  ws : Nat
  pc : Nat
  videoTrack : Option Track
deriving DecidableEq, Repr

/-- A viewer session: ws channel and peer connection id (server.js line 76). -/
structure ViewerSession where
  ws : Nat
  pc : Nat
deriving DecidableEq, Repr

/-- Declared role of a ws connection. -/
inductive Role where
  | broadcaster
  | viewer
deriving DecidableEq, Repr

/-- Per-connection handler state: the role and viewerId local variables of the
ws connection closure (server.js lines 212-213). -/
structure ConnState where
  role : Option Role
  viewerId : Option String
deriving DecidableEq, Repr

/-- Outbound signaling messages (safeSend payloads). -/
inductive OutMsg where
  | registeredB (viewerCount : Nat)
  | registeredV (viewerId : String)
  | offer (sdp : Sdp)
  | answer (sdp : Sdp)
  | candidate (c : Candidate)
  | viewerCount (n : Nat)
  | broadcasterDisconnected (permanent : Bool)
deriving DecidableEq, Repr

/-- Whole-server state: module-level mutables of server.js plus the pc store,
the per-connection states and the log of messages pushed to channels.
liveTimers holds the ids of armed (not yet fired, not cleared) broadcaster
timeout timers; timerRef is the broadcasterTimeoutTimer variable. -/
structure ServerState where
  broadcasterPeer : Option BroadcasterSession
  broadcasterWs : Option Nat
  viewerPeers : List (String × ViewerSession)
  pendingCandidates : List (String × List Candidate)
  timerRef : Option Nat
  liveTimers : List Nat
  nextTimer : Nat
  pcs : List (Nat × Pc)
  nextPc : Nat
  conns : List (Nat × ConnState)
  nextConn : Nat
  outbox : List (Nat × OutMsg)
deriving DecidableEq, Repr

/-- Association-list lookup (JS Map.get). -/
def alookup {κ α : Type} [DecidableEq κ] (k : κ) : List (κ × α) → Option α
  | [] => none
  | (k2, v) :: rest => if k2 = k then some v else alookup k rest

/-- Association-list removal of a key (JS Map.delete). -/
def aerase {κ α : Type} [DecidableEq κ] (k : κ) : List (κ × α) → List (κ × α)
  | [] => []
  | (k2, v) :: rest => if k2 = k then aerase k rest else (k2, v) :: aerase k rest

/-- Update the value stored under a key in place. -/
def aupdate {κ α : Type} [DecidableEq κ] (k : κ) (f : α → α) : List (κ × α) → List (κ × α)
  | [] => []
  | (k2, v) :: rest =>
      if k2 = k then (k2, f v) :: aupdate k f rest else (k2, v) :: aupdate k f rest

/-- Keys of an association list. -/
def keys {κ α : Type} (l : List (κ × α)) : List κ := l.map Prod.fst

/-- Placeholder used when a pc id is not in the store (never reached from live
sessions); closed, empty. -/
def defaultPc : Pc :=
  { closed := true, remoteDescription := none, localDescription := none,
    transceivers := [], addIceCalls := [], addIceOk := [] }

/-- Fetch a peer connection by id. -/
def getPc (s : ServerState) (k : Nat) : Pc := (alookup k s.pcs).getD defaultPc

/-- Mark a peer connection closed (pc.close(), errors swallowed). -/
def closePc (pc : Pc) : Pc := { pc with closed := true }

/-- One addIceCandidate invocation: always logged in addIceCalls; also logged
in addIceOk when the engine accepts it (ok). -/
def applyIce (ok : Bool) (c : Candidate) (pc : Pc) : Pc :=
  { pc with addIceCalls := pc.addIceCalls ++ [c],
            addIceOk := pc.addIceOk ++ (if ok then [c] else []) }

/-- Drain a buffered candidate list in order; each application is attempted
inside its own try/catch (server.js lines 270-272), a candidate whose id is in
bad throws and is swallowed. -/
def drainPending (bad : List Nat) : List Candidate → Pc → Pc
  | [], pc => pc
  | c :: rest, pc => drainPending bad rest (applyIce (decide (c.cval ∉ bad)) c pc)

/-- The sender-selection predicate of server.js lines 179 and 277:
s.track === null || (s.track && s.track.kind === "video"). -/
def senderMatch (tr : Transceiver) : Bool :=
  match tr.track with
  | none => true
  | some t => t.kind == "video"

/-- replaceTrack into the first matching sender; identity when no sender
matches (the code guards with if (sender)). -/
def replaceInFirstMatch (t : Track) : List Transceiver → List Transceiver
  | [] => []
  | tr :: rest =>
      if senderMatch tr then { tr with track := some t } :: rest
      else tr :: replaceInFirstMatch t rest

/-- In-place track substitution on a peer connection: only the matched
sender's track changes, no description changes. -/
def replaceTrackInPc (t : Track) (pc : Pc) : Pc :=
  { pc with transceivers := replaceInFirstMatch t pc.transceivers }

/-- safeSend toward one ws channel (message appended to the log). -/
def send (w : Nat) (m : OutMsg) (s : ServerState) : ServerState :=
  { s with outbox := s.outbox ++ [(w, m)] }

/-- notifyViewerCount: send the current viewer count to the broadcaster ws
(no-op when broadcasterWs is null, as safeSend checks). -/
def notifyViewerCount (s : ServerState) : ServerState :=
  match s.broadcasterWs with
  | some w => send w (OutMsg.viewerCount s.viewerPeers.length) s
  | none => s

/-- notifyAllViewers: send a message to every viewer's ws, roster order. -/
def notifyAllViewers (m : OutMsg) (s : ServerState) : ServerState :=
  { s with outbox := s.outbox ++ s.viewerPeers.map (fun pr => (pr.2.ws, m)) }

/-- cleanupViewer (server.js lines 138-146): close its pc, delete the roster
entry and the pending-candidate buffer, notify the broadcaster of the count. -/
def cleanupViewer (viewerId : String) (s : ServerState) : ServerState :=
  match alookup viewerId s.viewerPeers with
  | none => s
  | some peer =>
      notifyViewerCount
        { s with pcs := aupdate peer.pc closePc s.pcs,
                 viewerPeers := aerase viewerId s.viewerPeers,
                 pendingCandidates := aerase viewerId s.pendingCandidates }

/-- cleanupBroadcaster (server.js lines 149-155): close its pc and null the
broadcasterPeer/broadcasterWs globals. -/
def cleanupBroadcaster (s : ServerState) : ServerState :=
  match s.broadcasterPeer with
  | none => s
  | some b =>
      { s with pcs := aupdate b.pc closePc s.pcs,
               broadcasterPeer := none, broadcasterWs := none }

/-- sendOfferToViewer (server.js lines 109-121): create an offer, set it as
local description and send it; on failure the catch calls cleanupViewer. -/
def sendOfferToViewer (viewerId : String) (fail : Bool) (s : ServerState) : ServerState :=
  match alookup viewerId s.viewerPeers with
  | none => s
  | some peer =>
      if fail then cleanupViewer viewerId s
      else
        let s := { s with pcs := aupdate peer.pc (fun pc => { pc with localDescription := some 0 }) s.pcs }
        send peer.ws (OutMsg.offer 0) s

/-- The slot-reserved pc a new viewer session starts with: one sendonly video
transceiver, occupied by trk when the broadcaster already holds a track. -/
def freshViewerPc (trk : Option Track) : Pc :=
  { closed := false, remoteDescription := none, localDescription := none,
    transceivers := [{ direction := Dir.sendonly, track := trk }],
    addIceCalls := [], addIceOk := [] }

/-- The pc a new broadcaster session starts with: one recvonly video
transceiver reserved up front. -/
def freshBroadcasterPc : Pc :=
  { closed := false, remoteDescription := none, localDescription := none,
    transceivers := [{ direction := Dir.recvonly, track := none }],
    addIceCalls := [], addIceOk := [] }

/-- The broadcaster's current video track, if a broadcaster session with a
track exists. -/
def broadcasterTrack (s : ServerState) : Option Track :=
  match s.broadcasterPeer with
  | some b => b.videoTrack
  | none => none

/-- createViewerPeer (server.js lines 71-106): cleanupViewer first, create a
fresh pc, register the session, reserve one sendonly video slot carrying the
broadcaster's track when one already exists, then send the initial offer. -/
def createViewerPeer (viewerId : String) (ws : Nat) (offerFail : Bool)
    (s : ServerState) : ServerState :=
  let s := cleanupViewer viewerId s
  let s :=
    { s with pcs := s.pcs ++ [(s.nextPc, freshViewerPc (broadcasterTrack s))],
             nextPc := s.nextPc + 1,
             viewerPeers := s.viewerPeers ++ [(viewerId, { ws := ws, pc := s.nextPc })] }
  sendOfferToViewer viewerId offerFail s

/-- createBroadcasterPeer (server.js lines 158-205): cleanupBroadcaster first,
create a fresh pc with one recvonly video slot reserved up front, install the
new singleton session with no track yet. -/
def createBroadcasterPeer (ws : Nat) (s : ServerState) : ServerState :=
  let s := cleanupBroadcaster s
  { s with pcs := s.pcs ++ [(s.nextPc, freshBroadcasterPc)], nextPc := s.nextPc + 1,
           broadcasterPeer := some { ws := ws, pc := s.nextPc, videoTrack := none },
           broadcasterWs := some ws }

/-- clearTimeout of the referenced broadcaster timer on broadcaster
registration (server.js line 225). -/
def clearBroadcasterTimer (s : ServerState) : ServerState :=
  match s.timerRef with
  | some i => { s with liveTimers := s.liveTimers.filter (fun j => decide (j ≠ i)), timerRef := none }
  | none => s

/-- viewerId = msg.viewerId || randomUUID(): an absent or empty requested id
falls back to the generated one. -/
def resolveViewerId (requested : Option String) (fresh : String) : String :=
  match requested with
  | some v => if v = "" then fresh else v
  | none => fresh

/-- The broadcaster offer handler body (server.js lines 245-258).  failAt none
means every awaited step succeeds; some 0 means setRemoteDescription (or the
description constructor) throws before any effect; some (j+1) means a later
step (createAnswer / setLocalDescription) throws after the remote description
was applied.  The catch only logs. -/
def handleOffer (cid : Nat) (sdp : Sdp) (failAt : Option Nat) (s : ServerState) : ServerState :=
  match s.broadcasterPeer with
  | none => s
  | some b =>
      match failAt with
      | some 0 => s
      | some (_ + 1) =>
          { s with pcs := aupdate b.pc (fun pc => { pc with remoteDescription := some sdp }) s.pcs }
      | none =>
          let s := { s with pcs := aupdate b.pc (fun pc => { pc with remoteDescription := some sdp, localDescription := some 0 }) s.pcs }
          send cid (OutMsg.answer 0) s

/-- The viewer answer handler body (server.js lines 261-288): set the remote
description (fail aborts with only a log), drain the buffered candidates in
arrival order, delete the buffer, then late-attach the broadcaster track via
replaceTrack when one exists. -/
def handleAnswer (vid : String) (sdp : Sdp) (fail : Bool) (bad : List Nat)
    (s : ServerState) : ServerState :=
  match alookup vid s.viewerPeers with
  | none => s
  | some peer =>
      if fail then s
      else
        let pending := (alookup vid s.pendingCandidates).getD []
        let f := fun pc => drainPending bad pending { pc with remoteDescription := some sdp }
        let s :=
          { s with pcs := aupdate peer.pc f s.pcs,
                   pendingCandidates := aerase vid s.pendingCandidates }
        match s.broadcasterPeer with
        | some b =>
            match b.videoTrack with
            | some t => { s with pcs := aupdate peer.pc (replaceTrackInPc t) s.pcs }
            | none => s
        | none => s

/-- Append a candidate to a viewer's pending buffer, creating the buffer if
absent (server.js lines 299-300). -/
def pushPending (vid : String) (c : Candidate)
    (l : List (String × List Candidate)) : List (String × List Candidate) :=
  match alookup vid l with
  | some _ => aupdate vid (fun cs => cs ++ [c]) l
  | none => l ++ [(vid, [c])]

/-- The viewer branch of the candidate handler (server.js lines 294-302):
apply immediately when the pc has a remote description, otherwise buffer. -/
def handleViewerCandidate (vid : String) (c : Candidate) (ok : Bool)
    (s : ServerState) : ServerState :=
  match alookup vid s.viewerPeers with
  | some peer =>
      if (getPc s peer.pc).remoteDescription.isSome then
        { s with pcs := aupdate peer.pc (applyIce ok c) s.pcs }
      else
        { s with pendingCandidates := pushPending vid c s.pendingCandidates }
  | none => { s with pendingCandidates := pushPending vid c s.pendingCandidates }

/-- The tail of viewer registration (server.js line 240): a viewer that
registers while no broadcaster session exists is immediately told the
broadcaster is disconnected (non-permanently). -/
def maybeNotifyNoBroadcaster (cid : Nat) (s : ServerState) : ServerState :=
  match s.broadcasterPeer with
  | none => send cid (OutMsg.broadcasterDisconnected false) s
  | some _ => s

/-- Inbound signaling messages, with the failure oracles of the awaited
peer-connection operations attached to the event. -/
inductive InMsg where
  | registerBroadcaster
  | registerViewer (requested : Option String) (fresh : String) (offerFail : Bool)
  | offer (sdp : Sdp) (failAt : Option Nat)
  | answer (sdp : Sdp) (fail : Bool) (bad : List Nat)
  | candidate (c : Candidate) (ok : Bool)
deriving DecidableEq, Repr

/-- The ws message handler (server.js lines 218-305), dispatching on message
type and the connection's declared role. -/
def handleMessage (cid : Nat) (m : InMsg) (s : ServerState) : ServerState :=
  match alookup cid s.conns with
  | none => s
  | some conn =>
      match m with
      | InMsg.registerBroadcaster =>
          let s := { s with conns := aupdate cid (fun c => { c with role := some Role.broadcaster }) s.conns }
          let s := clearBroadcasterTimer s
          let s := createBroadcasterPeer cid s
          send cid (OutMsg.registeredB s.viewerPeers.length) s
      | InMsg.registerViewer requested fresh offerFail =>
          let vid := resolveViewerId requested fresh
          let s := { s with conns := aupdate cid (fun c => { c with role := some Role.viewer, viewerId := some vid }) s.conns }
          let s := createViewerPeer vid cid offerFail s
          let s := send cid (OutMsg.registeredV vid) s
          let s := notifyViewerCount s
          maybeNotifyNoBroadcaster cid s
      | InMsg.offer sdp failAt =>
          match conn.role with
          | some Role.broadcaster => handleOffer cid sdp failAt s
          | _ => s
      | InMsg.answer sdp fail bad =>
          match conn.role with
          | some Role.viewer =>
              match conn.viewerId with
              | some vid => handleAnswer vid sdp fail bad s
              | none => s
          | _ => s
      | InMsg.candidate c ok =>
          match conn.role with
          | some Role.broadcaster =>
              match s.broadcasterPeer with
              | some b => { s with pcs := aupdate b.pc (applyIce ok c) s.pcs }
              | none => s
          | some Role.viewer =>
              match conn.viewerId with
              | some vid => if vid = "" then s else handleViewerCandidate vid c ok s
              | none => s
          | none => s

/-- Forward a track to every current viewer in roster order by replaceTrack
into each viewer pc (server.js lines 177-186). -/
def forwardAll (t : Track) : List (String × ViewerSession) → List (Nat × Pc) → List (Nat × Pc)
  | [], pcs => pcs
  | (_, p) :: rest, pcs => forwardAll t rest (aupdate p.pc (replaceTrackInPc t) pcs)

/-- The broadcaster pc.ontrack handler (server.js lines 170-192): a non-video
track is ignored entirely; a video track is stored on the session and
substituted into every viewer's matching sender with no renegotiation. -/
def handleTrack (t : Track) (s : ServerState) : ServerState :=
  match s.broadcasterPeer with
  | none => s
  | some b =>
      if t.kind = "video" then
        let s := { s with broadcasterPeer := some { b with videoTrack := some t } }
        { s with pcs := forwardAll t s.viewerPeers s.pcs }
      else s

/-- track.onended (server.js lines 188-191): drop the stored track handle. -/
def handleTrackEnded (s : ServerState) : ServerState :=
  match s.broadcasterPeer with
  | some b => { s with broadcasterPeer := some { b with videoTrack := none } }
  | none => s

/-- The ws close handler (server.js lines 307-320): a broadcaster connection
releases the broadcaster and arms a fresh timeout timer (without clearing any
already armed one); a viewer connection is cleaned up. -/
def handleClose (cid : Nat) (s : ServerState) : ServerState :=
  match alookup cid s.conns with
  | none => s
  | some conn =>
      let s := { s with conns := aerase cid s.conns }
      match conn.role with
      | some Role.broadcaster =>
          let s := cleanupBroadcaster s
          { s with liveTimers := s.liveTimers ++ [s.nextTimer],
                   timerRef := some s.nextTimer, nextTimer := s.nextTimer + 1 }
      | some Role.viewer =>
          match conn.viewerId with
          | some vid => if vid = "" then s else cleanupViewer vid s
          | none => s
      | none => s

/-- An armed timer firing (server.js lines 313-316): notify every viewer of a
non-permanent broadcaster disconnect; the timer is single-shot. -/
def fireTimeout (i : Nat) (s : ServerState) : ServerState :=
  if i ∈ s.liveTimers then
    let s := notifyAllViewers (OutMsg.broadcasterDisconnected false) s
    { s with liveTimers := s.liveTimers.filter (fun j => decide (j ≠ i)) }
  else s

/-- External events driving the server. -/
inductive Event where
  | connect
  | message (cid : Nat) (m : InMsg)
  | close (cid : Nat)
  | timer (i : Nat)
  | track (t : Track)
  | trackEnded
deriving DecidableEq, Repr

/-- One step of the event loop. -/
def stepEv (e : Event) (s : ServerState) : ServerState :=
  match e with
  | Event.connect =>
      { s with conns := s.conns ++ [(s.nextConn, { role := none, viewerId := none })],
               nextConn := s.nextConn + 1 }
  | Event.message cid m => handleMessage cid m s
  | Event.close cid => handleClose cid s
  | Event.timer i => fireTimeout i s
  | Event.track t => handleTrack t s
  | Event.trackEnded => handleTrackEnded s

/-- The process-start state. -/
def initState : ServerState :=
  { broadcasterPeer := none, broadcasterWs := none, viewerPeers := [],
    pendingCandidates := [], timerRef := none, liveTimers := [], nextTimer := 0,
    pcs := [], nextPc := 0, conns := [], nextConn := 0, outbox := [] }

/-- States reachable from process start by event steps. -/
inductive Reachable : ServerState → Prop where
  | init : Reachable initState
  | step (e : Event) {s : ServerState} : Reachable s → Reachable (stepEv e s)

/-- Every track occupying a transceiver of this peer connection is a video
track. -/
def VideoPc (pc : Pc) : Prop :=
  ∀ tr ∈ pc.transceivers, ∀ t, tr.track = some t → t.kind = "video"

/-- The state invariant maintained by every event: the viewer roster has no
duplicate ids, the stored broadcaster track (when present) is video, and no
peer connection's transceiver holds a non-video track. -/
structure SrvInv (s : ServerState) : Prop where
  nodupViewers : (keys s.viewerPeers).Nodup
  videoKind : ∀ b t, s.broadcasterPeer = some b → b.videoTrack = some t → t.kind = "video"
  allPcsVideo : ∀ kp ∈ s.pcs, VideoPc kp.2

/-- A concrete video track used by concrete executions. -/
def tVideo : Track := { tid := 0, kind := "video" }

/-- A concrete audio track used by concrete executions. -/
def tAudio : Track := { tid := 1, kind := "audio" }

/-- Run a list of events from process start, in order. -/
def runEvents (es : List Event) : ServerState :=
  es.foldl (fun s e => stepEv e s) initState

/-- One fresh connection and nothing else. -/
def wsConn : ServerState := runEvents [Event.connect]

/-- A single viewer "v" registered on connection 0, no broadcaster. -/
def wsViewer : ServerState :=
  runEvents [Event.connect, Event.message 0 (InMsg.registerViewer (some "v") "u" false)]

/-- The peer connection wsViewer holds for viewer "v". -/
def wsViewerPc : Pc :=
  { closed := false, remoteDescription := none, localDescription := some 0,
    transceivers := [{ direction := Dir.sendonly, track := none }],
    addIceCalls := [], addIceOk := [] }

/-- A broadcaster on connection 0 and a viewer "v" on connection 1. -/
def wsBV : ServerState :=
  runEvents [Event.connect, Event.message 0 InMsg.registerBroadcaster,
    Event.connect, Event.message 1 (InMsg.registerViewer (some "v") "u" false)]

/-- A viewer "v" with two candidates buffered before any answer. -/
def wsVC : ServerState :=
  runEvents [Event.connect, Event.message 0 (InMsg.registerViewer (some "v") "u" false),
    Event.message 0 (InMsg.candidate { cval := 5 } true),
    Event.message 0 (InMsg.candidate { cval := 6 } true)]

/-- Broadcaster B1 registers and its track arrives, a viewer registers and is
handed the track, then broadcaster B2 replaces B1. -/
def cexStateC1 : ServerState :=
  runEvents [Event.connect, Event.message 0 InMsg.registerBroadcaster,
    Event.track tVideo,
    Event.connect, Event.message 1 (InMsg.registerViewer (some "v") "u" false),
    Event.connect, Event.message 2 InMsg.registerBroadcaster]

/-- Two broadcaster connections register in turn and then both close, leaving
an orphaned armed timer; a viewer is present and a third broadcaster then
registers, which cancels only the referenced timer. -/
def cexStateC6 : ServerState :=
  runEvents [Event.connect, Event.message 0 InMsg.registerBroadcaster,
    Event.connect, Event.message 1 InMsg.registerBroadcaster,
    Event.connect, Event.message 2 (InMsg.registerViewer (some "v") "u" false),
    Event.close 0, Event.close 1,
    Event.connect, Event.message 3 InMsg.registerBroadcaster]

/-- A viewer registration whose initial createOffer fails. -/
def cexStateC7 : ServerState :=
  runEvents [Event.connect, Event.message 0 (InMsg.registerViewer (some "v") "u" true)]

/-! ### Association-list lemmas -/

@[simp] theorem alookup_nil {κ α : Type} [DecidableEq κ] (k : κ) :
    alookup k ([] : List (κ × α)) = none := rfl

@[simp] theorem alookup_cons {κ α : Type} [DecidableEq κ] (k k2 : κ) (v : α) (l : List (κ × α)) :
    alookup k ((k2, v) :: l) = if k2 = k then some v else alookup k l := rfl

@[simp] theorem aerase_nil {κ α : Type} [DecidableEq κ] (k : κ) :
    aerase k ([] : List (κ × α)) = [] := rfl

@[simp] theorem aerase_cons {κ α : Type} [DecidableEq κ] (k k2 : κ) (v : α) (l : List (κ × α)) :
    aerase k ((k2, v) :: l) = if k2 = k then aerase k l else (k2, v) :: aerase k l := rfl

@[simp] theorem aupdate_nil {κ α : Type} [DecidableEq κ] (k : κ) (f : α → α) :
    aupdate k f ([] : List (κ × α)) = [] := rfl

@[simp] theorem aupdate_cons {κ α : Type} [DecidableEq κ] (k k2 : κ) (f : α → α) (v : α)
    (l : List (κ × α)) :
    aupdate k f ((k2, v) :: l)
      = if k2 = k then (k2, f v) :: aupdate k f l else (k2, v) :: aupdate k f l := rfl

@[simp] theorem keys_nil {κ α : Type} : keys ([] : List (κ × α)) = [] := rfl

@[simp] theorem keys_cons {κ α : Type} (p : κ × α) (l : List (κ × α)) :
    keys (p :: l) = p.1 :: keys l := rfl

@[simp] theorem keys_append {κ α : Type} (l l2 : List (κ × α)) :
    keys (l ++ l2) = keys l ++ keys l2 := by
  simp [keys]

theorem alookup_append_of_some {κ α : Type} [DecidableEq κ] {k : κ} {l l2 : List (κ × α)} {v : α}
    (h : alookup k l = some v) : alookup k (l ++ l2) = some v := by
  induction l with
  | nil => simp at h
  | cons p rest ih =>
      obtain ⟨k2, w⟩ := p
      by_cases hk : k2 = k
      · simp_all
      · simp_all

theorem alookup_append_of_none {κ α : Type} [DecidableEq κ] {k : κ} {l l2 : List (κ × α)}
    (h : alookup k l = none) : alookup k (l ++ l2) = alookup k l2 := by
  induction l with
  | nil => simp
  | cons p rest ih =>
      obtain ⟨k2, w⟩ := p
      by_cases hk : k2 = k
      · simp_all
      · simp_all

theorem alookup_aupdate_self {κ α : Type} [DecidableEq κ] (k : κ) (f : α → α) (l : List (κ × α)) :
    alookup k (aupdate k f l) = (alookup k l).map f := by
  induction l with
  | nil => simp
  | cons p rest ih =>
      obtain ⟨k2, w⟩ := p
      by_cases hk : k2 = k
      · simp [hk, ih]
      · simp [hk, ih]

theorem alookup_aupdate_of_ne {κ α : Type} [DecidableEq κ] {k k2 : κ} (f : α → α) (l : List (κ × α))
    (h : k ≠ k2) : alookup k (aupdate k2 f l) = alookup k l := by
  induction l with
  | nil => simp
  | cons p rest ih =>
      obtain ⟨k3, w⟩ := p
      by_cases hk : k3 = k2
      · have hk3 : ¬ k3 = k := fun hh => h (hh ▸ hk)
        simp [hk, hk3, Ne.symm h, ih]
      · by_cases hk3 : k3 = k
        · simp [hk, hk3, h]
        · simp [hk, hk3, ih]

theorem alookup_aerase_self {κ α : Type} [DecidableEq κ] (k : κ) (l : List (κ × α)) :
    alookup k (aerase k l) = none := by
  induction l with
  | nil => simp
  | cons p rest ih =>
      obtain ⟨k2, w⟩ := p
      by_cases hk : k2 = k
      · simp [hk, ih]
      · simp [hk, ih]

theorem alookup_aerase_of_ne {κ α : Type} [DecidableEq κ] {k k2 : κ} (l : List (κ × α))
    (h : k ≠ k2) : alookup k (aerase k2 l) = alookup k l := by
  induction l with
  | nil => simp
  | cons p rest ih =>
      obtain ⟨k3, w⟩ := p
      by_cases hk : k3 = k2
      · have hk3 : ¬ k3 = k := fun hh => h (hh ▸ hk)
        simp [hk, hk3, Ne.symm h, ih]
      · by_cases hk3 : k3 = k
        · simp [hk, hk3, h]
        · simp [hk, hk3, ih]

theorem aerase_of_alookup_none {κ α : Type} [DecidableEq κ] {k : κ} {l : List (κ × α)}
    (h : alookup k l = none) : aerase k l = l := by
  induction l with
  | nil => simp
  | cons p rest ih =>
      obtain ⟨k2, w⟩ := p
      by_cases hk : k2 = k
      · simp [hk] at h
      · simp [hk] at h ⊢
        exact ih h

theorem alookup_eq_none_iff {κ α : Type} [DecidableEq κ] {k : κ} {l : List (κ × α)} :
    alookup k l = none ↔ k ∉ keys l := by
  induction l with
  | nil => simp
  | cons p rest ih =>
      obtain ⟨k2, w⟩ := p
      by_cases hk : k2 = k
      · simp [hk]
      · simp [hk, ih, Ne.symm hk]

theorem keys_aupdate {κ α : Type} [DecidableEq κ] (k : κ) (f : α → α) (l : List (κ × α)) :
    keys (aupdate k f l) = keys l := by
  induction l with
  | nil => simp
  | cons p rest ih =>
      obtain ⟨k2, w⟩ := p
      by_cases hk : k2 = k
      · simp [hk, ih]
      · simp [hk, ih]

theorem aerase_sublist {κ α : Type} [DecidableEq κ] (k : κ) (l : List (κ × α)) :
    List.Sublist (aerase k l) l := by
  induction l with
  | nil => simp
  | cons p rest ih =>
      obtain ⟨k2, w⟩ := p
      by_cases hk : k2 = k
      · simp only [aerase_cons, hk, if_true]
        exact List.Sublist.cons _ ih
      · simp only [aerase_cons, hk, if_false]
        exact ih.cons₂ (k2, w)

theorem nodup_keys_aerase {κ α : Type} [DecidableEq κ] (k : κ) {l : List (κ × α)}
    (h : (keys l).Nodup) : (keys (aerase k l)).Nodup :=
  List.Nodup.sublist ((aerase_sublist k l).map Prod.fst) h

theorem not_mem_keys_aerase {κ α : Type} [DecidableEq κ] (k : κ) (l : List (κ × α)) :
    k ∉ keys (aerase k l) :=
  alookup_eq_none_iff.mp (alookup_aerase_self k l)

theorem nodup_keys_aerase_append {κ α : Type} [DecidableEq κ] (k : κ) (v : α) {l : List (κ × α)}
    (h : (keys l).Nodup) : (keys (aerase k l ++ [(k, v)])).Nodup := by
  have h1 : (keys (aerase k l)).Nodup := nodup_keys_aerase k h
  have h2 : k ∉ keys (aerase k l) := not_mem_keys_aerase k l
  simp only [keys_append, keys_cons, keys_nil]
  refine List.Nodup.append h1 (List.nodup_singleton k) ?_
  intro a ha hb
  simp only [List.mem_singleton] at hb
  exact h2 (hb ▸ ha)

/-! ### Peer-connection operation lemmas -/

theorem videoPc_of_transceivers_eq {pc pc2 : Pc} (h : pc2.transceivers = pc.transceivers)
    (hv : VideoPc pc) : VideoPc pc2 := by
  intro tr htr t ht
  exact hv tr (h ▸ htr) t ht

theorem videoPc_closePc {pc : Pc} (hv : VideoPc pc) : VideoPc (closePc pc) :=
  videoPc_of_transceivers_eq rfl hv

theorem videoPc_applyIce {pc : Pc} (ok : Bool) (c : Candidate) (hv : VideoPc pc) :
    VideoPc (applyIce ok c pc) :=
  videoPc_of_transceivers_eq rfl hv

theorem drainPending_transceivers (bad : List Nat) (cs : List Candidate) (pc : Pc) :
    (drainPending bad cs pc).transceivers = pc.transceivers := by
  induction cs generalizing pc with
  | nil => rfl
  | cons c rest ih => simp [drainPending, ih, applyIce]

theorem drainPending_closed (bad : List Nat) (cs : List Candidate) (pc : Pc) :
    (drainPending bad cs pc).closed = pc.closed := by
  induction cs generalizing pc with
  | nil => rfl
  | cons c rest ih => simp [drainPending, ih, applyIce]

theorem drainPending_addIceCalls (bad : List Nat) (cs : List Candidate) (pc : Pc) :
    (drainPending bad cs pc).addIceCalls = pc.addIceCalls ++ cs := by
  induction cs generalizing pc with
  | nil => simp [drainPending]
  | cons c rest ih => simp [drainPending, ih, applyIce]

theorem drainPending_addIceOk (bad : List Nat) (cs : List Candidate) (pc : Pc) :
    (drainPending bad cs pc).addIceOk
      = pc.addIceOk ++ cs.filter (fun c => decide (c.cval ∉ bad)) := by
  induction cs generalizing pc with
  | nil => simp [drainPending]
  | cons c rest ih =>
      by_cases hb : c.cval ∈ bad
      · simp [drainPending, ih, applyIce, hb]
      · simp [drainPending, ih, applyIce, hb]

theorem replaceInFirstMatch_video {t : Track} (ht : t.kind = "video")
    {l : List Transceiver} (hv : ∀ tr ∈ l, ∀ t2, tr.track = some t2 → t2.kind = "video") :
    ∀ tr ∈ replaceInFirstMatch t l, ∀ t2, tr.track = some t2 → t2.kind = "video" := by
  induction l with
  | nil => simp [replaceInFirstMatch]
  | cons tr0 rest ih =>
      by_cases hm : senderMatch tr0
      · simp only [replaceInFirstMatch, hm, if_true]
        intro tr htr t2 ht2
        rcases List.mem_cons.mp htr with h1 | h1
        · subst h1
          simp at ht2
          subst ht2
          exact ht
        · exact hv tr (List.mem_cons_of_mem tr0 h1) t2 ht2
      · simp only [replaceInFirstMatch, hm, if_false]
        intro tr htr t2 ht2
        rcases List.mem_cons.mp htr with h1 | h1
        · subst h1
          exact hv tr (List.mem_cons_self _ _) t2 ht2
        · exact ih (fun tr2 h t3 => hv tr2 (List.mem_cons_of_mem tr0 h) t3) tr h1 t2 ht2

theorem videoPc_replaceTrackInPc {t : Track} (ht : t.kind = "video") {pc : Pc}
    (hv : VideoPc pc) : VideoPc (replaceTrackInPc t pc) := by
  intro tr htr t2 ht2
  exact replaceInFirstMatch_video ht hv tr htr t2 ht2

theorem allVideo_aupdate {l : List (Nat × Pc)} {f : Pc → Pc} (k : Nat)
    (hf : ∀ pc, VideoPc pc → VideoPc (f pc))
    (h : ∀ kp ∈ l, VideoPc kp.2) : ∀ kp ∈ aupdate k f l, VideoPc kp.2 := by
  induction l with
  | nil => simp
  | cons p rest ih =>
      obtain ⟨k2, w⟩ := p
      by_cases hk : k2 = k
      · simp only [aupdate_cons, hk, if_true]
        intro kp hkp
        rcases List.mem_cons.mp hkp with h1 | h1
        · subst h1
          exact hf w (h (k, w) (by simp [hk]))
        · exact ih (fun kp2 hm => h kp2 (List.mem_cons_of_mem _ hm)) kp h1
      · simp only [aupdate_cons, hk, if_false]
        intro kp hkp
        rcases List.mem_cons.mp hkp with h1 | h1
        · subst h1
          exact h (k2, w) (List.mem_cons_self _ _)
        · exact ih (fun kp2 hm => h kp2 (List.mem_cons_of_mem _ hm)) kp h1

theorem allVideo_append {l : List (Nat × Pc)} {x : Nat × Pc}
    (h : ∀ kp ∈ l, VideoPc kp.2) (hx : VideoPc x.2) : ∀ kp ∈ l ++ [x], VideoPc kp.2 := by
  intro kp hkp
  rcases List.mem_append.mp hkp with h1 | h1
  · exact h kp h1
  · simp only [List.mem_singleton] at h1
    subst h1
    exact hx

theorem forwardAll_allVideo {t : Track} (ht : t.kind = "video")
    (l : List (String × ViewerSession)) {pcs : List (Nat × Pc)}
    (h : ∀ kp ∈ pcs, VideoPc kp.2) : ∀ kp ∈ forwardAll t l pcs, VideoPc kp.2 := by
  induction l generalizing pcs with
  | nil => exact h
  | cons pr rest ih =>
      obtain ⟨vid, p⟩ := pr
      exact ih (allVideo_aupdate p.pc (fun pc hv => videoPc_replaceTrackInPc ht hv) h)

theorem forwardAll_lookup_not_mem {t : Track} {l : List (String × ViewerSession)}
    {pcs : List (Nat × Pc)} {k : Nat} (h : k ∉ l.map (fun pr => pr.2.pc)) :
    alookup k (forwardAll t l pcs) = alookup k pcs := by
  induction l generalizing pcs with
  | nil => rfl
  | cons pr rest ih =>
      obtain ⟨vid, p⟩ := pr
      simp only [List.map_cons, List.mem_cons] at h
      push_neg at h
      rw [forwardAll, ih h.2, alookup_aupdate_of_ne _ _ h.1]

theorem forwardAll_lookup_mem {t : Track} {l : List (String × ViewerSession)}
    {pcs : List (Nat × Pc)} (hnd : (l.map (fun pr => pr.2.pc)).Nodup)
    {pr : String × ViewerSession} (hm : pr ∈ l) :
    alookup pr.2.pc (forwardAll t l pcs) = (alookup pr.2.pc pcs).map (replaceTrackInPc t) := by
  induction l generalizing pcs with
  | nil => simp at hm
  | cons pr0 rest ih =>
      obtain ⟨vid0, p0⟩ := pr0
      simp only [List.map_cons, List.nodup_cons] at hnd
      rcases List.mem_cons.mp hm with h1 | h1
      · subst h1
        rw [forwardAll, forwardAll_lookup_not_mem hnd.1, alookup_aupdate_self]
      · rw [forwardAll, ih hnd.2 h1]
        have hne : pr.2.pc ≠ p0.pc := by
          intro hh
          exact hnd.1 (hh ▸ List.mem_map_of_mem (fun pr2 => pr2.2.pc) h1)
        rw [alookup_aupdate_of_ne _ _ hne]

/-! ### Projection lemmas for the state-passing helpers -/

@[simp] theorem send_viewerPeers (w : Nat) (m : OutMsg) (s : ServerState) :
    (send w m s).viewerPeers = s.viewerPeers := rfl

@[simp] theorem send_broadcasterPeer (w : Nat) (m : OutMsg) (s : ServerState) :
    (send w m s).broadcasterPeer = s.broadcasterPeer := rfl

@[simp] theorem send_broadcasterWs (w : Nat) (m : OutMsg) (s : ServerState) :
    (send w m s).broadcasterWs = s.broadcasterWs := rfl

@[simp] theorem send_pcs (w : Nat) (m : OutMsg) (s : ServerState) :
    (send w m s).pcs = s.pcs := rfl

@[simp] theorem send_pendingCandidates (w : Nat) (m : OutMsg) (s : ServerState) :
    (send w m s).pendingCandidates = s.pendingCandidates := rfl

@[simp] theorem send_conns (w : Nat) (m : OutMsg) (s : ServerState) :
    (send w m s).conns = s.conns := rfl

@[simp] theorem send_nextPc (w : Nat) (m : OutMsg) (s : ServerState) :
    (send w m s).nextPc = s.nextPc := rfl

@[simp] theorem send_timerRef (w : Nat) (m : OutMsg) (s : ServerState) :
    (send w m s).timerRef = s.timerRef := rfl

@[simp] theorem send_liveTimers (w : Nat) (m : OutMsg) (s : ServerState) :
    (send w m s).liveTimers = s.liveTimers := rfl

@[simp] theorem send_outbox (w : Nat) (m : OutMsg) (s : ServerState) :
    (send w m s).outbox = s.outbox ++ [(w, m)] := rfl

@[simp] theorem notifyViewerCount_viewerPeers (s : ServerState) :
    (notifyViewerCount s).viewerPeers = s.viewerPeers := by
  unfold notifyViewerCount
  split <;> rfl

@[simp] theorem notifyViewerCount_broadcasterPeer (s : ServerState) :
    (notifyViewerCount s).broadcasterPeer = s.broadcasterPeer := by
  unfold notifyViewerCount
  split <;> rfl

@[simp] theorem notifyViewerCount_broadcasterWs (s : ServerState) :
    (notifyViewerCount s).broadcasterWs = s.broadcasterWs := by
  unfold notifyViewerCount
  split <;> rfl

@[simp] theorem notifyViewerCount_pcs (s : ServerState) :
    (notifyViewerCount s).pcs = s.pcs := by
  unfold notifyViewerCount
  split <;> rfl

@[simp] theorem notifyViewerCount_pendingCandidates (s : ServerState) :
    (notifyViewerCount s).pendingCandidates = s.pendingCandidates := by
  unfold notifyViewerCount
  split <;> rfl

@[simp] theorem notifyViewerCount_conns (s : ServerState) :
    (notifyViewerCount s).conns = s.conns := by
  unfold notifyViewerCount
  split <;> rfl

@[simp] theorem notifyViewerCount_nextPc (s : ServerState) :
    (notifyViewerCount s).nextPc = s.nextPc := by
  unfold notifyViewerCount
  split <;> rfl

@[simp] theorem notifyViewerCount_timerRef (s : ServerState) :
    (notifyViewerCount s).timerRef = s.timerRef := by
  unfold notifyViewerCount
  split <;> rfl

@[simp] theorem notifyViewerCount_liveTimers (s : ServerState) :
    (notifyViewerCount s).liveTimers = s.liveTimers := by
  unfold notifyViewerCount
  split <;> rfl

@[simp] theorem notifyViewerCount_nextTimer (s : ServerState) :
    (notifyViewerCount s).nextTimer = s.nextTimer := by
  unfold notifyViewerCount
  split <;> rfl

@[simp] theorem notifyViewerCount_nextConn (s : ServerState) :
    (notifyViewerCount s).nextConn = s.nextConn := by
  unfold notifyViewerCount
  split <;> rfl

@[simp] theorem notifyAllViewers_viewerPeers (m : OutMsg) (s : ServerState) :
    (notifyAllViewers m s).viewerPeers = s.viewerPeers := rfl

@[simp] theorem notifyAllViewers_broadcasterPeer (m : OutMsg) (s : ServerState) :
    (notifyAllViewers m s).broadcasterPeer = s.broadcasterPeer := rfl

@[simp] theorem notifyAllViewers_pcs (m : OutMsg) (s : ServerState) :
    (notifyAllViewers m s).pcs = s.pcs := rfl

@[simp] theorem notifyAllViewers_pendingCandidates (m : OutMsg) (s : ServerState) :
    (notifyAllViewers m s).pendingCandidates = s.pendingCandidates := rfl

@[simp] theorem cleanupViewer_viewerPeers (vid : String) (s : ServerState) :
    (cleanupViewer vid s).viewerPeers = aerase vid s.viewerPeers := by
  unfold cleanupViewer
  rcases hl : alookup vid s.viewerPeers with _ | peer
  · simp [aerase_of_alookup_none hl]
  · simp

theorem cleanupViewer_pendingCandidates_of_none {vid : String} {s : ServerState}
    (h : alookup vid s.viewerPeers = none) :
    (cleanupViewer vid s).pendingCandidates = s.pendingCandidates := by
  unfold cleanupViewer
  rw [h]

theorem cleanupViewer_pendingCandidates_of_some {vid : String} {s : ServerState}
    {peer : ViewerSession} (h : alookup vid s.viewerPeers = some peer) :
    (cleanupViewer vid s).pendingCandidates = aerase vid s.pendingCandidates := by
  unfold cleanupViewer
  rw [h]
  simp

@[simp] theorem cleanupViewer_broadcasterPeer (vid : String) (s : ServerState) :
    (cleanupViewer vid s).broadcasterPeer = s.broadcasterPeer := by
  unfold cleanupViewer
  split <;> simp

@[simp] theorem cleanupViewer_broadcasterWs (vid : String) (s : ServerState) :
    (cleanupViewer vid s).broadcasterWs = s.broadcasterWs := by
  unfold cleanupViewer
  split <;> simp

@[simp] theorem cleanupViewer_conns (vid : String) (s : ServerState) :
    (cleanupViewer vid s).conns = s.conns := by
  unfold cleanupViewer
  split <;> simp

@[simp] theorem cleanupViewer_nextPc (vid : String) (s : ServerState) :
    (cleanupViewer vid s).nextPc = s.nextPc := by
  unfold cleanupViewer
  split <;> simp

@[simp] theorem cleanupViewer_timerRef (vid : String) (s : ServerState) :
    (cleanupViewer vid s).timerRef = s.timerRef := by
  unfold cleanupViewer
  split <;> simp

@[simp] theorem cleanupViewer_liveTimers (vid : String) (s : ServerState) :
    (cleanupViewer vid s).liveTimers = s.liveTimers := by
  unfold cleanupViewer
  split <;> simp

@[simp] theorem cleanupViewer_nextTimer (vid : String) (s : ServerState) :
    (cleanupViewer vid s).nextTimer = s.nextTimer := by
  unfold cleanupViewer
  split <;> simp

theorem cleanupViewer_pcs_of_none {vid : String} {s : ServerState}
    (h : alookup vid s.viewerPeers = none) : (cleanupViewer vid s).pcs = s.pcs := by
  unfold cleanupViewer
  rw [h]

theorem cleanupViewer_pcs_of_some {vid : String} {s : ServerState} {peer : ViewerSession}
    (h : alookup vid s.viewerPeers = some peer) :
    (cleanupViewer vid s).pcs = aupdate peer.pc closePc s.pcs := by
  unfold cleanupViewer
  rw [h]
  simp

@[simp] theorem cleanupBroadcaster_viewerPeers (s : ServerState) :
    (cleanupBroadcaster s).viewerPeers = s.viewerPeers := by
  unfold cleanupBroadcaster
  split <;> rfl

@[simp] theorem cleanupBroadcaster_pendingCandidates (s : ServerState) :
    (cleanupBroadcaster s).pendingCandidates = s.pendingCandidates := by
  unfold cleanupBroadcaster
  split <;> rfl

@[simp] theorem cleanupBroadcaster_broadcasterPeer (s : ServerState) :
    (cleanupBroadcaster s).broadcasterPeer = none := by
  unfold cleanupBroadcaster
  rcases hb : s.broadcasterPeer with _ | b
  · exact hb
  · rfl

@[simp] theorem cleanupBroadcaster_conns (s : ServerState) :
    (cleanupBroadcaster s).conns = s.conns := by
  unfold cleanupBroadcaster
  split <;> rfl

@[simp] theorem cleanupBroadcaster_nextPc (s : ServerState) :
    (cleanupBroadcaster s).nextPc = s.nextPc := by
  unfold cleanupBroadcaster
  split <;> rfl

@[simp] theorem cleanupBroadcaster_timerRef (s : ServerState) :
    (cleanupBroadcaster s).timerRef = s.timerRef := by
  unfold cleanupBroadcaster
  split <;> rfl

@[simp] theorem cleanupBroadcaster_liveTimers (s : ServerState) :
    (cleanupBroadcaster s).liveTimers = s.liveTimers := by
  unfold cleanupBroadcaster
  split <;> rfl

@[simp] theorem cleanupBroadcaster_nextTimer (s : ServerState) :
    (cleanupBroadcaster s).nextTimer = s.nextTimer := by
  unfold cleanupBroadcaster
  split <;> rfl

@[simp] theorem cleanupBroadcaster_outbox (s : ServerState) :
    (cleanupBroadcaster s).outbox = s.outbox := by
  unfold cleanupBroadcaster
  split <;> rfl

theorem cleanupBroadcaster_pcs_of_none {s : ServerState} (h : s.broadcasterPeer = none) :
    (cleanupBroadcaster s).pcs = s.pcs := by
  unfold cleanupBroadcaster
  rw [h]

theorem cleanupBroadcaster_pcs_of_some {s : ServerState} {b : BroadcasterSession}
    (h : s.broadcasterPeer = some b) :
    (cleanupBroadcaster s).pcs = aupdate b.pc closePc s.pcs := by
  unfold cleanupBroadcaster
  rw [h]

@[simp] theorem createBroadcasterPeer_broadcasterPeer (ws : Nat) (s : ServerState) :
    (createBroadcasterPeer ws s).broadcasterPeer
      = some { ws := ws, pc := s.nextPc, videoTrack := none } := by
  unfold createBroadcasterPeer
  simp

@[simp] theorem createBroadcasterPeer_broadcasterWs (ws : Nat) (s : ServerState) :
    (createBroadcasterPeer ws s).broadcasterWs = some ws := rfl

@[simp] theorem createBroadcasterPeer_viewerPeers (ws : Nat) (s : ServerState) :
    (createBroadcasterPeer ws s).viewerPeers = s.viewerPeers := by
  unfold createBroadcasterPeer
  simp

@[simp] theorem createBroadcasterPeer_pendingCandidates (ws : Nat) (s : ServerState) :
    (createBroadcasterPeer ws s).pendingCandidates = s.pendingCandidates := by
  unfold createBroadcasterPeer
  simp

@[simp] theorem createBroadcasterPeer_conns (ws : Nat) (s : ServerState) :
    (createBroadcasterPeer ws s).conns = s.conns := by
  unfold createBroadcasterPeer
  simp

@[simp] theorem createBroadcasterPeer_nextPc (ws : Nat) (s : ServerState) :
    (createBroadcasterPeer ws s).nextPc = s.nextPc + 1 := by
  unfold createBroadcasterPeer
  simp

@[simp] theorem createBroadcasterPeer_timerRef (ws : Nat) (s : ServerState) :
    (createBroadcasterPeer ws s).timerRef = s.timerRef := by
  unfold createBroadcasterPeer
  simp

@[simp] theorem createBroadcasterPeer_liveTimers (ws : Nat) (s : ServerState) :
    (createBroadcasterPeer ws s).liveTimers = s.liveTimers := by
  unfold createBroadcasterPeer
  simp

@[simp] theorem createBroadcasterPeer_outbox (ws : Nat) (s : ServerState) :
    (createBroadcasterPeer ws s).outbox = s.outbox := by
  unfold createBroadcasterPeer
  simp

theorem createBroadcasterPeer_pcs (ws : Nat) (s : ServerState) :
    (createBroadcasterPeer ws s).pcs
      = (cleanupBroadcaster s).pcs ++ [(s.nextPc, freshBroadcasterPc)] := by
  unfold createBroadcasterPeer
  simp

@[simp] theorem clearBroadcasterTimer_viewerPeers (s : ServerState) :
    (clearBroadcasterTimer s).viewerPeers = s.viewerPeers := by
  unfold clearBroadcasterTimer
  split <;> rfl

@[simp] theorem clearBroadcasterTimer_broadcasterPeer (s : ServerState) :
    (clearBroadcasterTimer s).broadcasterPeer = s.broadcasterPeer := by
  unfold clearBroadcasterTimer
  split <;> rfl

@[simp] theorem clearBroadcasterTimer_broadcasterWs (s : ServerState) :
    (clearBroadcasterTimer s).broadcasterWs = s.broadcasterWs := by
  unfold clearBroadcasterTimer
  split <;> rfl

@[simp] theorem clearBroadcasterTimer_pcs (s : ServerState) :
    (clearBroadcasterTimer s).pcs = s.pcs := by
  unfold clearBroadcasterTimer
  split <;> rfl

@[simp] theorem clearBroadcasterTimer_pendingCandidates (s : ServerState) :
    (clearBroadcasterTimer s).pendingCandidates = s.pendingCandidates := by
  unfold clearBroadcasterTimer
  split <;> rfl

@[simp] theorem clearBroadcasterTimer_conns (s : ServerState) :
    (clearBroadcasterTimer s).conns = s.conns := by
  unfold clearBroadcasterTimer
  split <;> rfl

@[simp] theorem clearBroadcasterTimer_nextPc (s : ServerState) :
    (clearBroadcasterTimer s).nextPc = s.nextPc := by
  unfold clearBroadcasterTimer
  split <;> rfl

@[simp] theorem clearBroadcasterTimer_outbox (s : ServerState) :
    (clearBroadcasterTimer s).outbox = s.outbox := by
  unfold clearBroadcasterTimer
  split <;> rfl

@[simp] theorem broadcasterTrack_cleanupViewer (vid : String) (s : ServerState) :
    broadcasterTrack (cleanupViewer vid s) = broadcasterTrack s := by
  unfold broadcasterTrack
  rw [cleanupViewer_broadcasterPeer]

theorem videoPc_freshViewerPc {trk : Option Track}
    (h : ∀ t, trk = some t → t.kind = "video") : VideoPc (freshViewerPc trk) := by
  intro tr htr t ht
  simp only [freshViewerPc, List.mem_singleton] at htr
  subst htr
  exact h t ht

theorem videoPc_freshBroadcasterPc : VideoPc freshBroadcasterPc := by
  intro tr htr t ht
  simp only [freshBroadcasterPc, List.mem_singleton] at htr
  subst htr
  simp at ht

/-! ### Invariant preservation -/

theorem srvInv_of_fields {s s2 : ServerState}
    (h1 : s2.viewerPeers = s.viewerPeers) (h2 : s2.broadcasterPeer = s.broadcasterPeer)
    (h3 : s2.pcs = s.pcs) (hs : SrvInv s) : SrvInv s2 := by
  refine ⟨?_, ?_, ?_⟩
  · rw [h1]
    exact hs.nodupViewers
  · intro b t hb ht
    exact hs.videoKind b t (h2 ▸ hb) ht
  · intro kp hk
    exact hs.allPcsVideo kp (h3 ▸ hk)

theorem srvInv_broadcasterTrack_video {s : ServerState} (hs : SrvInv s) :
    ∀ t, broadcasterTrack s = some t → t.kind = "video" := by
  intro t ht
  unfold broadcasterTrack at ht
  rcases hb : s.broadcasterPeer with _ | b
  · rw [hb] at ht
    simp at ht
  · rw [hb] at ht
    exact hs.videoKind b t hb ht

theorem srvInv_send {s : ServerState} (w : Nat) (m : OutMsg) (hs : SrvInv s) :
    SrvInv (send w m s) :=
  @srvInv_of_fields s (send w m s) rfl rfl rfl hs

theorem srvInv_notifyViewerCount {s : ServerState} (hs : SrvInv s) :
    SrvInv (notifyViewerCount s) :=
  srvInv_of_fields (notifyViewerCount_viewerPeers s) (notifyViewerCount_broadcasterPeer s)
    (notifyViewerCount_pcs s) hs

theorem srvInv_notifyAllViewers {s : ServerState} (m : OutMsg) (hs : SrvInv s) :
    SrvInv (notifyAllViewers m s) :=
  @srvInv_of_fields s (notifyAllViewers m s) rfl rfl rfl hs

theorem srvInv_cleanupViewer {s : ServerState} (vid : String) (hs : SrvInv s) :
    SrvInv (cleanupViewer vid s) := by
  refine ⟨?_, ?_, ?_⟩
  · rw [cleanupViewer_viewerPeers]
    exact nodup_keys_aerase vid hs.nodupViewers
  · intro b t hb ht
    rw [cleanupViewer_broadcasterPeer] at hb
    exact hs.videoKind b t hb ht
  · rcases hl : alookup vid s.viewerPeers with _ | peer
    · rw [cleanupViewer_pcs_of_none hl]
      exact hs.allPcsVideo
    · rw [cleanupViewer_pcs_of_some hl]
      exact allVideo_aupdate peer.pc (fun pc hv => videoPc_closePc hv) hs.allPcsVideo

theorem srvInv_cleanupBroadcaster {s : ServerState} (hs : SrvInv s) :
    SrvInv (cleanupBroadcaster s) := by
  refine ⟨?_, ?_, ?_⟩
  · rw [cleanupBroadcaster_viewerPeers]
    exact hs.nodupViewers
  · intro b t hb ht
    rw [cleanupBroadcaster_broadcasterPeer] at hb
    exact absurd hb (by simp)
  · rcases hb : s.broadcasterPeer with _ | b
    · rw [cleanupBroadcaster_pcs_of_none hb]
      exact hs.allPcsVideo
    · rw [cleanupBroadcaster_pcs_of_some hb]
      exact allVideo_aupdate b.pc (fun pc hv => videoPc_closePc hv) hs.allPcsVideo

theorem srvInv_createBroadcasterPeer {s : ServerState} (ws : Nat) (hs : SrvInv s) :
    SrvInv (createBroadcasterPeer ws s) := by
  refine ⟨?_, ?_, ?_⟩
  · rw [createBroadcasterPeer_viewerPeers]
    exact hs.nodupViewers
  · intro b t hb ht
    rw [createBroadcasterPeer_broadcasterPeer] at hb
    injection hb with hb2
    subst hb2
    simp at ht
  · rw [createBroadcasterPeer_pcs]
    exact allVideo_append (srvInv_cleanupBroadcaster hs).allPcsVideo videoPc_freshBroadcasterPc

theorem srvInv_sendOfferToViewer {s : ServerState} (vid : String) (fail : Bool) (hs : SrvInv s) :
    SrvInv (sendOfferToViewer vid fail s) := by
  unfold sendOfferToViewer
  rcases hl : alookup vid s.viewerPeers with _ | peer
  · exact hs
  · rcases fail with _ | _
    · simp only [Bool.false_eq_true, if_false]
      refine srvInv_send _ _ ?_
      refine ⟨hs.nodupViewers, hs.videoKind, ?_⟩
      exact allVideo_aupdate peer.pc (fun pc hv => videoPc_of_transceivers_eq rfl hv)
        hs.allPcsVideo
    · simp only [if_true]
      exact srvInv_cleanupViewer vid hs

theorem srvInv_createViewerPeer {s : ServerState} (vid : String) (ws : Nat) (offerFail : Bool)
    (hs : SrvInv s) : SrvInv (createViewerPeer vid ws offerFail s) := by
  unfold createViewerPeer
  refine srvInv_sendOfferToViewer _ _ ?_
  have hcv : SrvInv (cleanupViewer vid s) := srvInv_cleanupViewer vid hs
  refine ⟨?_, ?_, ?_⟩
  · simp only [cleanupViewer_viewerPeers]
    exact nodup_keys_aerase_append vid _ hs.nodupViewers
  · intro b t hb ht
    simp only [cleanupViewer_broadcasterPeer] at hb
    exact hs.videoKind b t hb ht
  · refine allVideo_append hcv.allPcsVideo ?_
    exact videoPc_freshViewerPc (srvInv_broadcasterTrack_video hcv)

theorem srvInv_handleOffer {s : ServerState} (cid : Nat) (sdp : Sdp) (failAt : Option Nat)
    (hs : SrvInv s) : SrvInv (handleOffer cid sdp failAt s) := by
  unfold handleOffer
  rcases hb : s.broadcasterPeer with _ | b
  · exact hs
  · rcases failAt with _ | j
    · refine srvInv_send _ _ ?_
      refine ⟨hs.nodupViewers, ?_, ?_⟩
      · exact fun b2 t hb2 ht => hs.videoKind b2 t (hb.trans hb2) ht
      · exact allVideo_aupdate b.pc (fun pc hv => videoPc_of_transceivers_eq rfl hv)
          hs.allPcsVideo
    · rcases j with _ | j
      · exact hs
      · refine ⟨hs.nodupViewers, ?_, ?_⟩
        · exact fun b2 t hb2 ht => hs.videoKind b2 t (hb.trans hb2) ht
        · exact allVideo_aupdate b.pc (fun pc hv => videoPc_of_transceivers_eq rfl hv)
            hs.allPcsVideo

theorem srvInv_handleAnswer {s : ServerState} (vid : String) (sdp : Sdp) (fail : Bool)
    (bad : List Nat) (hs : SrvInv s) : SrvInv (handleAnswer vid sdp fail bad s) := by
  unfold handleAnswer
  rcases hl : alookup vid s.viewerPeers with _ | peer
  · exact hs
  · rcases fail with _ | _
    · simp only [Bool.false_eq_true, if_false]
      have hdrain : ∀ kp ∈ aupdate peer.pc
          (fun pc => drainPending bad ((alookup vid s.pendingCandidates).getD [])
            { pc with remoteDescription := some sdp }) s.pcs, VideoPc kp.2 := by
        refine allVideo_aupdate peer.pc (fun pc hv => ?_) hs.allPcsVideo
        exact videoPc_of_transceivers_eq (drainPending_transceivers _ _ _) hv
      rcases hb : s.broadcasterPeer with _ | b
      · exact ⟨hs.nodupViewers, fun b2 t hb2 ht => hs.videoKind b2 t (hb.trans hb2) ht, hdrain⟩
      · obtain ⟨bws, bpc, bvt⟩ := b
        rcases bvt with _ | t
        · exact ⟨hs.nodupViewers, fun b2 t2 hb2 ht => hs.videoKind b2 t2 (hb.trans hb2) ht,
            hdrain⟩
        · refine ⟨hs.nodupViewers,
            fun b2 t2 hb2 ht => hs.videoKind b2 t2 (hb.trans hb2) ht, ?_⟩
          refine allVideo_aupdate peer.pc (fun pc hvp => ?_) hdrain
          exact videoPc_replaceTrackInPc
            (hs.videoKind { ws := bws, pc := bpc, videoTrack := some t } t hb rfl) hvp
    · simp only [if_true]
      exact hs

theorem srvInv_handleViewerCandidate {s : ServerState} (vid : String) (c : Candidate) (ok : Bool)
    (hs : SrvInv s) : SrvInv (handleViewerCandidate vid c ok s) := by
  unfold handleViewerCandidate
  rcases hl : alookup vid s.viewerPeers with _ | peer
  · exact @srvInv_of_fields s _ rfl rfl rfl hs
  · by_cases hr : (getPc s peer.pc).remoteDescription.isSome
    · simp only [hr, if_true]
      refine ⟨hs.nodupViewers, hs.videoKind, ?_⟩
      exact allVideo_aupdate peer.pc (fun pc hv => videoPc_applyIce ok c hv) hs.allPcsVideo
    · simp only [hr, if_false]
      exact @srvInv_of_fields s _ rfl rfl rfl hs

theorem srvInv_maybeNotifyNoBroadcaster {s2 : ServerState} (cid : Nat) (hs2 : SrvInv s2) :
    SrvInv (maybeNotifyNoBroadcaster cid s2) := by
  unfold maybeNotifyNoBroadcaster
  rcases hb : s2.broadcasterPeer with _ | b
  · exact srvInv_send _ _ hs2
  · exact hs2

theorem srvInv_handleMessage {s : ServerState} (cid : Nat) (m : InMsg) (hs : SrvInv s) :
    SrvInv (handleMessage cid m s) := by
  unfold handleMessage
  rcases hc : alookup cid s.conns with _ | conn
  · exact hs
  · obtain ⟨r, v⟩ := conn
    have hsc : SrvInv { s with conns := aupdate cid (fun c => { c with role := some Role.broadcaster }) s.conns } :=
      @srvInv_of_fields s _ rfl rfl rfl hs
    have hsv : ∀ vid2, SrvInv { s with conns := aupdate cid (fun c => { c with role := some Role.viewer, viewerId := some vid2 }) s.conns } :=
      fun vid2 => @srvInv_of_fields s _ rfl rfl rfl hs
    cases m with
    | registerBroadcaster =>
        refine srvInv_send _ _ ?_
        refine srvInv_createBroadcasterPeer _ ?_
        refine @srvInv_of_fields _ _ (clearBroadcasterTimer_viewerPeers _)
          (clearBroadcasterTimer_broadcasterPeer _) (clearBroadcasterTimer_pcs _) hsc
    | registerViewer requested fresh offerFail =>
        exact srvInv_maybeNotifyNoBroadcaster cid (srvInv_notifyViewerCount
          (srvInv_send _ _ (srvInv_createViewerPeer _ _ _ (hsv _))))
    | offer sdp failAt =>
        rcases r with _ | r
        · exact hs
        · cases r with
          | broadcaster => exact srvInv_handleOffer cid sdp failAt hs
          | viewer => exact hs
    | answer sdp fail bad =>
        rcases r with _ | r
        · exact hs
        · cases r with
          | broadcaster => exact hs
          | viewer =>
              rcases v with _ | vid
              · exact hs
              · exact srvInv_handleAnswer vid sdp fail bad hs
    | candidate c ok =>
        rcases r with _ | r
        · exact hs
        · cases r with
          | broadcaster =>
              rcases hb : s.broadcasterPeer with _ | b
              · exact hs
              · refine ⟨hs.nodupViewers, ?_, ?_⟩
                · exact fun b2 t hb2 ht => hs.videoKind b2 t (hb.trans hb2) ht
                · exact allVideo_aupdate b.pc (fun pc hv => videoPc_applyIce ok c hv)
                    hs.allPcsVideo
          | viewer =>
              rcases v with _ | vid
              · exact hs
              · by_cases hv : vid = ""
                · simp only [hv, if_true]
                  exact hs
                · simp only [hv, if_false]
                  exact srvInv_handleViewerCandidate vid c ok hs

theorem srvInv_handleClose {s : ServerState} (cid : Nat) (hs : SrvInv s) :
    SrvInv (handleClose cid s) := by
  unfold handleClose
  rcases hc : alookup cid s.conns with _ | conn
  · exact hs
  · obtain ⟨r, v⟩ := conn
    have hse : SrvInv { s with conns := aerase cid s.conns } :=
      @srvInv_of_fields s _ rfl rfl rfl hs
    rcases r with _ | r
    · exact hse
    · cases r with
      | broadcaster =>
          have h2 : SrvInv (cleanupBroadcaster { s with conns := aerase cid s.conns }) :=
            srvInv_cleanupBroadcaster hse
          exact @srvInv_of_fields (cleanupBroadcaster { s with conns := aerase cid s.conns }) _
            rfl rfl rfl h2
      | viewer =>
          rcases v with _ | vid
          · exact hse
          · by_cases hv : vid = ""
            · simp only [hv, if_true]
              exact hse
            · simp only [hv, if_false]
              exact srvInv_cleanupViewer vid hse

theorem srvInv_handleTrack {s : ServerState} (t : Track) (hs : SrvInv s) :
    SrvInv (handleTrack t s) := by
  unfold handleTrack
  rcases hb : s.broadcasterPeer with _ | b
  · exact hs
  · by_cases hk : t.kind = "video"
    · simp only [hk, if_true]
      refine ⟨hs.nodupViewers, ?_, ?_⟩
      · intro b2 t2 hb2 ht2
        simp only [Option.some.injEq] at hb2
        subst hb2
        simp only at ht2
        injection ht2 with ht3
        subst ht3
        exact hk
      · exact forwardAll_allVideo hk _ hs.allPcsVideo
    · simp only [hk, if_false]
      exact hs

theorem srvInv_handleTrackEnded {s : ServerState} (hs : SrvInv s) :
    SrvInv (handleTrackEnded s) := by
  unfold handleTrackEnded
  rcases hb : s.broadcasterPeer with _ | b
  · exact hs
  · refine ⟨hs.nodupViewers, ?_, hs.allPcsVideo⟩
    intro b2 t2 hb2 ht2
    simp only [Option.some.injEq] at hb2
    subst hb2
    simp at ht2

theorem srvInv_fireTimeout {s : ServerState} (i : Nat) (hs : SrvInv s) :
    SrvInv (fireTimeout i s) := by
  unfold fireTimeout
  by_cases hm : i ∈ s.liveTimers
  · simp only [hm, if_true]
    exact @srvInv_of_fields s _ rfl rfl rfl hs
  · simp only [hm, if_false]
    exact hs

theorem srvInv_step (e : Event) {s : ServerState} (hs : SrvInv s) : SrvInv (stepEv e s) := by
  cases e with
  | connect => exact @srvInv_of_fields s _ rfl rfl rfl hs
  | message cid m => exact srvInv_handleMessage cid m hs
  | close cid => exact srvInv_handleClose cid hs
  | timer i => exact srvInv_fireTimeout i hs
  | track t => exact srvInv_handleTrack t hs
  | trackEnded => exact srvInv_handleTrackEnded hs

theorem srvInv_init : SrvInv initState := by
  refine ⟨?_, ?_, ?_⟩
  · simp [initState]
  · intro b t hb ht
    simp [initState] at hb
  · intro kp hk
    simp [initState] at hk

theorem reachable_srvInv {s : ServerState} (h : Reachable s) : SrvInv s := by
  induction h with
  | init => exact srvInv_init
  | step e hr ih => exact srvInv_step e ih

/-! ### Characterization of the message dispatch -/

@[simp] theorem maybeNotifyNoBroadcaster_viewerPeers (cid : Nat) (s : ServerState) :
    (maybeNotifyNoBroadcaster cid s).viewerPeers = s.viewerPeers := by
  unfold maybeNotifyNoBroadcaster
  split <;> rfl

@[simp] theorem maybeNotifyNoBroadcaster_broadcasterPeer (cid : Nat) (s : ServerState) :
    (maybeNotifyNoBroadcaster cid s).broadcasterPeer = s.broadcasterPeer := by
  unfold maybeNotifyNoBroadcaster
  split <;> rfl

@[simp] theorem maybeNotifyNoBroadcaster_pcs (cid : Nat) (s : ServerState) :
    (maybeNotifyNoBroadcaster cid s).pcs = s.pcs := by
  unfold maybeNotifyNoBroadcaster
  split <;> rfl

@[simp] theorem maybeNotifyNoBroadcaster_pendingCandidates (cid : Nat) (s : ServerState) :
    (maybeNotifyNoBroadcaster cid s).pendingCandidates = s.pendingCandidates := by
  unfold maybeNotifyNoBroadcaster
  split <;> rfl

@[simp] theorem maybeNotifyNoBroadcaster_conns (cid : Nat) (s : ServerState) :
    (maybeNotifyNoBroadcaster cid s).conns = s.conns := by
  unfold maybeNotifyNoBroadcaster
  split <;> rfl

@[simp] theorem maybeNotifyNoBroadcaster_nextPc (cid : Nat) (s : ServerState) :
    (maybeNotifyNoBroadcaster cid s).nextPc = s.nextPc := by
  unfold maybeNotifyNoBroadcaster
  split <;> rfl

theorem handleMessage_of_no_conn {s : ServerState} {cid : Nat} (m : InMsg)
    (hc : alookup cid s.conns = none) : handleMessage cid m s = s := by
  unfold handleMessage
  rw [hc]

theorem handleMessage_registerBroadcaster_eq {s : ServerState} {cid : Nat} {conn : ConnState}
    (hc : alookup cid s.conns = some conn) :
    handleMessage cid InMsg.registerBroadcaster s
      = (let s1 := { s with conns := aupdate cid (fun c => { c with role := some Role.broadcaster }) s.conns }
         let s2 := createBroadcasterPeer cid (clearBroadcasterTimer s1)
         send cid (OutMsg.registeredB s2.viewerPeers.length) s2) := by
  unfold handleMessage
  rw [hc]

theorem handleMessage_registerViewer_eq {s : ServerState} {cid : Nat} {conn : ConnState}
    (hc : alookup cid s.conns = some conn) (requested : Option String) (fresh : String)
    (offerFail : Bool) :
    handleMessage cid (InMsg.registerViewer requested fresh offerFail) s
      = (let vid := resolveViewerId requested fresh
         let s1 := { s with conns := aupdate cid (fun c => { c with role := some Role.viewer, viewerId := some vid }) s.conns }
         maybeNotifyNoBroadcaster cid (notifyViewerCount
           (send cid (OutMsg.registeredV vid) (createViewerPeer vid cid offerFail s1)))) := by
  unfold handleMessage
  rw [hc]

theorem handleMessage_offer_broadcaster {s : ServerState} {cid : Nat} {v : Option String}
    (hc : alookup cid s.conns = some { role := some Role.broadcaster, viewerId := v })
    (sdp : Sdp) (failAt : Option Nat) :
    handleMessage cid (InMsg.offer sdp failAt) s = handleOffer cid sdp failAt s := by
  unfold handleMessage
  rw [hc]

theorem handleMessage_answer_viewer {s : ServerState} {cid : Nat} {vid : String}
    (hc : alookup cid s.conns = some { role := some Role.viewer, viewerId := some vid })
    (sdp : Sdp) (fail : Bool) (bad : List Nat) :
    handleMessage cid (InMsg.answer sdp fail bad) s = handleAnswer vid sdp fail bad s := by
  unfold handleMessage
  rw [hc]

theorem handleMessage_candidate_viewer {s : ServerState} {cid : Nat} {vid : String}
    (hc : alookup cid s.conns = some { role := some Role.viewer, viewerId := some vid })
    (hvid : vid ≠ "") (c : Candidate) (ok : Bool) :
    handleMessage cid (InMsg.candidate c ok) s = handleViewerCandidate vid c ok s := by
  unfold handleMessage
  rw [hc]
  simp only [hvid, if_false]

theorem handleMessage_candidate_broadcaster {s : ServerState} {cid : Nat} {v : Option String}
    {b : BroadcasterSession}
    (hc : alookup cid s.conns = some { role := some Role.broadcaster, viewerId := v })
    (hb : s.broadcasterPeer = some b) (c : Candidate) (ok : Bool) :
    handleMessage cid (InMsg.candidate c ok) s
      = { s with pcs := aupdate b.pc (applyIce ok c) s.pcs } := by
  unfold handleMessage
  rw [hc]
  simp only [hb]

theorem sendOfferToViewer_of_none {s : ServerState} {vid : String} (fail : Bool)
    (h : alookup vid s.viewerPeers = none) : sendOfferToViewer vid fail s = s := by
  unfold sendOfferToViewer
  rw [h]

theorem sendOfferToViewer_of_some_ok {s : ServerState} {vid : String} {peer : ViewerSession}
    (h : alookup vid s.viewerPeers = some peer) :
    sendOfferToViewer vid false s
      = send peer.ws (OutMsg.offer 0)
          { s with pcs := aupdate peer.pc (fun pc => { pc with localDescription := some 0 }) s.pcs } := by
  unfold sendOfferToViewer
  rw [h]
  rfl

theorem sendOfferToViewer_of_some_fail {s : ServerState} {vid : String} {peer : ViewerSession}
    (h : alookup vid s.viewerPeers = some peer) :
    sendOfferToViewer vid true s = cleanupViewer vid s := by
  unfold sendOfferToViewer
  rw [h]
  rfl

theorem createViewerPeer_eq (vid : String) (ws : Nat) (offerFail : Bool) (s : ServerState) :
    createViewerPeer vid ws offerFail s
      = sendOfferToViewer vid offerFail
          { cleanupViewer vid s with
              pcs := (cleanupViewer vid s).pcs
                ++ [((cleanupViewer vid s).nextPc, freshViewerPc (broadcasterTrack (cleanupViewer vid s)))],
              nextPc := (cleanupViewer vid s).nextPc + 1,
              viewerPeers := (cleanupViewer vid s).viewerPeers
                ++ [(vid, { ws := ws, pc := (cleanupViewer vid s).nextPc })] } := rfl

/-! ### Further support lemmas -/

theorem alookup_aupdate_none {κ α : Type} [DecidableEq κ] {k : κ} {l : List (κ × α)}
    (k2 : κ) (f : α → α) (h : alookup k l = none) : alookup k (aupdate k2 f l) = none := by
  rw [alookup_eq_none_iff, keys_aupdate]
  exact alookup_eq_none_iff.mp h

theorem alookup_aupdate_closed {l : List (Nat × Pc)} (k k2 : Nat) {f : Pc → Pc}
    (hf : ∀ pc, (f pc).closed = pc.closed) :
    (alookup k (aupdate k2 f l)).map Pc.closed = (alookup k l).map Pc.closed := by
  by_cases hk : k = k2
  · subst hk
    rw [alookup_aupdate_self]
    cases alookup k l with
    | none => rfl
    | some pc => simp [hf]
  · rw [alookup_aupdate_of_ne _ _ hk]

theorem mem_of_alookup {κ α : Type} [DecidableEq κ] {k : κ} {l : List (κ × α)} {v : α}
    (h : alookup k l = some v) : (k, v) ∈ l := by
  induction l with
  | nil => simp at h
  | cons p rest ih =>
      obtain ⟨k2, w⟩ := p
      by_cases hk : k2 = k
      · subst hk
        simp at h
        subst h
        exact List.mem_cons_self _ _
      · simp [hk] at h
        exact List.mem_cons_of_mem _ (ih h)

theorem clearBroadcasterTimer_of_some {s : ServerState} {i : Nat} (h : s.timerRef = some i) :
    (clearBroadcasterTimer s).liveTimers = s.liveTimers.filter (fun j => decide (j ≠ i))
      ∧ (clearBroadcasterTimer s).timerRef = none := by
  unfold clearBroadcasterTimer
  rw [h]
  exact ⟨rfl, rfl⟩

theorem reachable_foldl (es : List Event) {s : ServerState} (h : Reachable s) :
    Reachable (es.foldl (fun s e => stepEv e s) s) := by
  induction es generalizing s with
  | nil => exact h
  | cons e rest ih => exact ih (h.step e)

theorem reachable_runEvents (es : List Event) : Reachable (runEvents es) :=
  reachable_foldl es Reachable.init

/-! ### Claims -/

/-- C9: an offer, answer or candidate message arriving on a connection whose
role variable is still unset causes no state change at all: the whole server
state (registry, broadcaster session, viewer sessions, pending-candidate
buffers, outbox) is left exactly as it was. -/
theorem c9_unregistered_messages_no_effect (s : ServerState) (cid : Nat) (v : Option String)
    (hc : alookup cid s.conns = some { role := none, viewerId := v }) :
    (∀ sdp failAt, handleMessage cid (InMsg.offer sdp failAt) s = s)
    ∧ (∀ sdp fail bad, handleMessage cid (InMsg.answer sdp fail bad) s = s)
    ∧ (∀ c ok, handleMessage cid (InMsg.candidate c ok) s = s) := by
  refine ⟨?_, ?_, ?_⟩
  · intro sdp failAt
    unfold handleMessage
    rw [hc]
  · intro sdp fail bad
    unfold handleMessage
    rw [hc]
  · intro c ok
    unfold handleMessage
    rw [hc]

/-- C9 witness: on a freshly connected, unregistered connection a candidate
message leaves the state untouched. -/
theorem c9_witness :
    alookup 0 wsConn.conns = some { role := none, viewerId := none }
    ∧ handleMessage 0 (InMsg.candidate { cval := 9 } true) wsConn = wsConn :=
  ⟨by decide, (c9_unregistered_messages_no_effect wsConn 0 none (by decide)).2.2 _ _⟩

/-- C10: the broadcaster session's stored videoTrack only ever holds a track
of kind video (at every reachable state), every track occupying any live
viewer's sending slot is of kind video, and a non-video track delivered by
the broadcaster's peer connection is ignored entirely (the handler is the
identity). -/
theorem c10_video_only_tracks :
    (∀ s, Reachable s → ∀ b t, s.broadcasterPeer = some b → b.videoTrack = some t →
      t.kind = "video")
    ∧ (∀ s, Reachable s → ∀ pr, pr ∈ s.viewerPeers →
        ∀ tr, tr ∈ (getPc s pr.2.pc).transceivers → ∀ t, tr.track = some t → t.kind = "video")
    ∧ (∀ s t, ¬ t.kind = "video" → handleTrack t s = s) := by
  refine ⟨?_, ?_, ?_⟩
  · intro s hr b t hb ht
    exact (reachable_srvInv hr).videoKind b t hb ht
  · intro s hr pr hpr tr htr t ht
    rcases hl : alookup pr.2.pc s.pcs with _ | pc
    · rw [getPc, hl] at htr
      simp [defaultPc] at htr
    · rw [getPc, hl] at htr
      exact (reachable_srvInv hr).allPcsVideo (pr.2.pc, pc) (mem_of_alookup hl) tr htr t ht
  · intro s t hk
    unfold handleTrack
    rcases hb : s.broadcasterPeer with _ | b
    · rfl
    · simp only [hk, if_false]

/-- C10 witness: an audio track delivered to a live broadcaster session is
ignored (state unchanged). -/
theorem c10_witness :
    ¬ tAudio.kind = "video" ∧ handleTrack tAudio wsBV = wsBV :=
  ⟨by decide, c10_video_only_tracks.2.2 wsBV tAudio (by decide)⟩

/-- C2: while a viewer's peer connection has no remote description, an
incoming candidate for that viewer only appends the candidate to that
viewer's pending buffer (nothing else changes); when the viewer's answer is
applied, the buffered candidates are passed to addIceCandidate exactly once
each, in arrival order, and the buffer entry is removed. -/
theorem c2_candidate_buffering_and_drain (s : ServerState) (cid : Nat) (vid : String)
    (p : ViewerSession) (pc : Pc)
    (hc : alookup cid s.conns = some { role := some Role.viewer, viewerId := some vid })
    (hvid : vid ≠ "")
    (hp : alookup vid s.viewerPeers = some p)
    (hpc : alookup p.pc s.pcs = some pc) :
    (pc.remoteDescription = none →
      ∀ c ok, handleMessage cid (InMsg.candidate c ok) s
        = { s with pendingCandidates := pushPending vid c s.pendingCandidates })
    ∧ (∀ sdp bad,
        (alookup p.pc (handleMessage cid (InMsg.answer sdp false bad) s).pcs).map Pc.addIceCalls
          = some (pc.addIceCalls ++ (alookup vid s.pendingCandidates).getD [])
        ∧ alookup vid (handleMessage cid (InMsg.answer sdp false bad) s).pendingCandidates
          = none) := by
  have hg : getPc s p.pc = pc := by
    rw [getPc, hpc]
    rfl
  refine ⟨?_, ?_⟩
  · intro hrem c ok
    rw [handleMessage_candidate_viewer hc hvid]
    unfold handleViewerCandidate
    simp only [hp, hg, hrem, Option.isSome_none, Bool.false_eq_true, if_false]
  · intro sdp bad
    rw [handleMessage_answer_viewer hc]
    unfold handleAnswer
    simp only [hp, Bool.false_eq_true, if_false]
    rcases hb : s.broadcasterPeer with _ | b
    · constructor
      · simp [alookup_aupdate_self, hpc, drainPending_addIceCalls]
      · simp [alookup_aerase_self]
    · obtain ⟨bws, bpc, bvt⟩ := b
      rcases bvt with _ | t
      · constructor
        · simp [alookup_aupdate_self, hpc, drainPending_addIceCalls]
        · simp [alookup_aerase_self]
      · constructor
        · simp [alookup_aupdate_self, hpc, drainPending_addIceCalls, replaceTrackInPc]
        · simp [alookup_aerase_self]

/-- C2 witness: with no remote description set, a candidate for viewer "v" is
appended to that viewer's pending buffer and nothing else changes. -/
theorem c2_witness :
    alookup "v" wsViewer.viewerPeers = some { ws := 0, pc := 0 }
    ∧ wsViewerPc.remoteDescription = none
    ∧ handleMessage 0 (InMsg.candidate { cval := 7 } true) wsViewer
        = { wsViewer with pendingCandidates := pushPending "v" { cval := 7 } wsViewer.pendingCandidates } :=
  ⟨by decide, by decide,
    (c2_candidate_buffering_and_drain wsViewer 0 "v" { ws := 0, pc := 0 } wsViewerPc
      (by decide) (by decide) (by decide) (by decide)).1 (by decide) { cval := 7 } true⟩

/-- C8: during the post-answer drain of a viewer's buffer, a candidate whose
application fails does not abort the drain: addIceCandidate is still invoked
for every buffered candidate in order, and exactly the non-failing ones are
accepted. -/
theorem c8_drain_error_does_not_abort (s : ServerState) (cid : Nat) (vid : String)
    (p : ViewerSession) (pc : Pc)
    (hc : alookup cid s.conns = some { role := some Role.viewer, viewerId := some vid })
    (hp : alookup vid s.viewerPeers = some p)
    (hpc : alookup p.pc s.pcs = some pc) :
    ∀ sdp bad,
      (alookup p.pc (handleMessage cid (InMsg.answer sdp false bad) s).pcs).map Pc.addIceCalls
        = some (pc.addIceCalls ++ (alookup vid s.pendingCandidates).getD [])
      ∧ (alookup p.pc (handleMessage cid (InMsg.answer sdp false bad) s).pcs).map Pc.addIceOk
        = some (pc.addIceOk ++ ((alookup vid s.pendingCandidates).getD []).filter
            (fun c => decide (c.cval ∉ bad))) := by
  intro sdp bad
  rw [handleMessage_answer_viewer hc]
  unfold handleAnswer
  simp only [hp, Bool.false_eq_true, if_false]
  rcases hb : s.broadcasterPeer with _ | b
  · constructor
    · simp [alookup_aupdate_self, hpc, drainPending_addIceCalls]
    · simp [alookup_aupdate_self, hpc, drainPending_addIceOk]
  · obtain ⟨bws, bpc, bvt⟩ := b
    rcases bvt with _ | t
    · constructor
      · simp [alookup_aupdate_self, hpc, drainPending_addIceCalls]
      · simp [alookup_aupdate_self, hpc, drainPending_addIceOk]
    · constructor
      · simp [alookup_aupdate_self, hpc, drainPending_addIceCalls, replaceTrackInPc]
      · simp [alookup_aupdate_self, hpc, drainPending_addIceOk, replaceTrackInPc]

/-- C8 witness: with candidates 5 and 6 buffered and candidate 5 failing,
both are attempted in order and candidate 6 is still applied. -/
theorem c8_witness :
    (alookup 0 (handleMessage 0 (InMsg.answer 9 false [5]) wsVC).pcs).map Pc.addIceCalls
      = some [{ cval := 5 }, { cval := 6 }]
    ∧ (alookup 0 (handleMessage 0 (InMsg.answer 9 false [5]) wsVC).pcs).map Pc.addIceOk
      = some [{ cval := 6 }] :=
  c8_drain_error_does_not_abort wsVC 0 "v" { ws := 0, pc := 0 } wsViewerPc
    (by decide) (by decide) (by decide) 9 [5]

/-- C5: when the broadcaster's video track arrives, it is substituted in
place into every current viewer's peer connection (replace-track into the
existing slot) and no message at all — in particular no new offer — is sent
to any viewer as a consequence. -/
theorem c5_track_substitution_in_place (s : ServerState) (b : BroadcasterSession)
    (t : Track) (hb : s.broadcasterPeer = some b) (ht : t.kind = "video")
    (hnd : (s.viewerPeers.map (fun pr => pr.2.pc)).Nodup) :
    (handleTrack t s).outbox = s.outbox
    ∧ (handleTrack t s).viewerPeers = s.viewerPeers
    ∧ (handleTrack t s).broadcasterPeer = some { b with videoTrack := some t }
    ∧ ∀ pr ∈ s.viewerPeers,
        alookup pr.2.pc (handleTrack t s).pcs
          = (alookup pr.2.pc s.pcs).map (replaceTrackInPc t) := by
  unfold handleTrack
  rw [hb]
  simp only [ht, if_true]
  refine ⟨by trivial, by trivial, by trivial, ?_⟩
  intro pr hpr
  exact forwardAll_lookup_mem hnd hpr

/-- C5 witness: the track arriving after viewer "v" negotiated is substituted
into the viewer's existing slot without any message being sent. -/
theorem c5_witness :
    (handleTrack tVideo wsBV).outbox = wsBV.outbox
    ∧ alookup 1 (handleTrack tVideo wsBV).pcs
        = (alookup 1 wsBV.pcs).map (replaceTrackInPc tVideo) :=
  ⟨(c5_track_substitution_in_place wsBV { ws := 0, pc := 0, videoTrack := none } tVideo
      (by decide) (by decide) (by decide)).1,
   (c5_track_substitution_in_place wsBV { ws := 0, pc := 0, videoTrack := none } tVideo
      (by decide) (by decide) (by decide)).2.2.2 ("v", { ws := 1, pc := 1 }) (by decide)⟩

theorem createViewerPeer_ok_eq (vid : String) (ws : Nat) (s : ServerState) :
    createViewerPeer vid ws false s
      = send ws (OutMsg.offer 0)
          { cleanupViewer vid s with
              pcs := aupdate (cleanupViewer vid s).nextPc
                       (fun pc => { pc with localDescription := some 0 })
                       ((cleanupViewer vid s).pcs
                         ++ [((cleanupViewer vid s).nextPc,
                              freshViewerPc (broadcasterTrack (cleanupViewer vid s)))]),
              nextPc := (cleanupViewer vid s).nextPc + 1,
              viewerPeers := (cleanupViewer vid s).viewerPeers
                ++ [(vid, { ws := ws, pc := (cleanupViewer vid s).nextPc })] } := by
  have hL : alookup vid ((cleanupViewer vid s).viewerPeers
      ++ [(vid, ({ ws := ws, pc := (cleanupViewer vid s).nextPc } : ViewerSession))])
      = some { ws := ws, pc := (cleanupViewer vid s).nextPc } := by
    rw [cleanupViewer_viewerPeers, alookup_append_of_none (alookup_aerase_self _ _)]
    simp
  rw [createViewerPeer_eq]
  rw [@sendOfferToViewer_of_some_ok
        { cleanupViewer vid s with
            pcs := (cleanupViewer vid s).pcs
              ++ [((cleanupViewer vid s).nextPc,
                   freshViewerPc (broadcasterTrack (cleanupViewer vid s)))],
            nextPc := (cleanupViewer vid s).nextPc + 1,
            viewerPeers := (cleanupViewer vid s).viewerPeers
              ++ [(vid, { ws := ws, pc := (cleanupViewer vid s).nextPc })] }
        vid { ws := ws, pc := (cleanupViewer vid s).nextPc } hL]

theorem createViewerPeer_fail_eq (vid : String) (ws : Nat) (s : ServerState) :
    createViewerPeer vid ws true s
      = cleanupViewer vid
          { cleanupViewer vid s with
              pcs := (cleanupViewer vid s).pcs
                ++ [((cleanupViewer vid s).nextPc,
                     freshViewerPc (broadcasterTrack (cleanupViewer vid s)))],
              nextPc := (cleanupViewer vid s).nextPc + 1,
              viewerPeers := (cleanupViewer vid s).viewerPeers
                ++ [(vid, { ws := ws, pc := (cleanupViewer vid s).nextPc })] } := by
  have hL : alookup vid ((cleanupViewer vid s).viewerPeers
      ++ [(vid, ({ ws := ws, pc := (cleanupViewer vid s).nextPc } : ViewerSession))])
      = some { ws := ws, pc := (cleanupViewer vid s).nextPc } := by
    rw [cleanupViewer_viewerPeers, alookup_append_of_none (alookup_aerase_self _ _)]
    simp
  rw [createViewerPeer_eq]
  rw [@sendOfferToViewer_of_some_fail
        { cleanupViewer vid s with
            pcs := (cleanupViewer vid s).pcs
              ++ [((cleanupViewer vid s).nextPc,
                   freshViewerPc (broadcasterTrack (cleanupViewer vid s)))],
            nextPc := (cleanupViewer vid s).nextPc + 1,
            viewerPeers := (cleanupViewer vid s).viewerPeers
              ++ [(vid, { ws := ws, pc := (cleanupViewer vid s).nextPc })] }
        vid { ws := ws, pc := (cleanupViewer vid s).nextPc } hL]


theorem alookup_setLocal_closed (k k2 : Nat) (l : List (Nat × Pc)) :
    (alookup k (aupdate k2 (fun pc => { pc with localDescription := some 0 }) l)).map Pc.closed
      = (alookup k l).map Pc.closed :=
  alookup_aupdate_closed k k2 (fun _ => rfl)

/-- C3: at every reachable state each viewer id has at most one roster entry;
and registering a viewer under an id that already has a session first tears
the prior session down — its peer connection is closed and its pending
candidates are discarded — leaving exactly one entry for that id. -/
theorem c3_viewer_id_unique :
    (∀ s, Reachable s → ∀ vid, (keys s.viewerPeers).count vid ≤ 1)
    ∧ (∀ s cid conn requested fresh old pcOld,
        alookup cid s.conns = some conn →
        alookup (resolveViewerId requested fresh) s.viewerPeers = some old →
        alookup old.pc s.pcs = some pcOld →
        (alookup old.pc
            (handleMessage cid (InMsg.registerViewer requested fresh false) s).pcs).map Pc.closed
          = some true
        ∧ alookup (resolveViewerId requested fresh)
            (handleMessage cid (InMsg.registerViewer requested fresh false) s).pendingCandidates
          = none
        ∧ (keys (handleMessage cid (InMsg.registerViewer requested fresh false) s).viewerPeers).count
            (resolveViewerId requested fresh) = 1) := by
  constructor
  · intro s hr vid
    exact List.nodup_iff_count_le_one.mp (reachable_srvInv hr).nodupViewers vid
  · intro s cid conn requested fresh old pcOld hc hold holdpc
    rw [handleMessage_registerViewer_eq hc]
    set vid := resolveViewerId requested fresh with hvid
    set s1 : ServerState := { s with conns := aupdate cid (fun c => { c with role := some Role.viewer, viewerId := some vid }) s.conns } with hs1
    have hold1 : alookup vid s1.viewerPeers = some old := hold
    have holdpc1 : alookup old.pc s1.pcs = some pcOld := holdpc
    refine ⟨?_, ?_, ?_⟩
    · simp only [maybeNotifyNoBroadcaster_pcs, notifyViewerCount_pcs, send_pcs]
      rw [createViewerPeer_ok_eq]
      simp only [send_pcs]
      rw [alookup_setLocal_closed]
      rw [cleanupViewer_pcs_of_some hold1]
      rw [alookup_append_of_some (show alookup old.pc (aupdate old.pc closePc s1.pcs)
            = some (closePc pcOld) from by rw [alookup_aupdate_self, holdpc1]; rfl)]
      rfl
    · simp only [maybeNotifyNoBroadcaster_pendingCandidates,
        notifyViewerCount_pendingCandidates, send_pendingCandidates]
      rw [createViewerPeer_ok_eq]
      simp only [send_pendingCandidates]
      rw [cleanupViewer_pendingCandidates_of_some hold1]
      exact alookup_aerase_self _ _
    · simp only [maybeNotifyNoBroadcaster_viewerPeers, notifyViewerCount_viewerPeers,
        send_viewerPeers]
      rw [createViewerPeer_ok_eq]
      simp only [send_viewerPeers, cleanupViewer_viewerPeers]
      rw [keys_append, List.count_append]
      rw [List.count_eq_zero_of_not_mem (not_mem_keys_aerase _ _)]
      simp [keys]

/-- C3 witness: re-registering viewer "v" closes the prior session's peer
connection, discards its pending buffer and leaves exactly one entry. -/
theorem c3_witness :
    alookup "v" wsViewer.viewerPeers = some { ws := 0, pc := 0 }
    ∧ (alookup 0 (handleMessage 0 (InMsg.registerViewer (some "v") "u" false) wsViewer).pcs).map
        Pc.closed = some true
    ∧ (keys (handleMessage 0 (InMsg.registerViewer (some "v") "u" false) wsViewer).viewerPeers).count
        "v" = 1 := by
  have h := (c3_viewer_id_unique.2 wsViewer 0
    { role := some Role.viewer, viewerId := some "v" } (some "v") "u"
    { ws := 0, pc := 0 } wsViewerPc (by decide) (by decide) (by decide))
  exact ⟨by decide, h.1, h.2.2⟩

/-- C4: a viewer registration reserves a send-only video slot on the new peer
connection at creation time: the roster entry points at the fresh pc, whose
transceiver list is exactly one sendonly slot, occupied by the broadcaster's
current track when one exists and empty otherwise. -/
theorem c4_viewer_slot_reserved (s : ServerState) (cid : Nat) (conn : ConnState)
    (requested : Option String) (fresh : String)
    (hc : alookup cid s.conns = some conn)
    (hfresh : alookup s.nextPc s.pcs = none) :
    alookup (resolveViewerId requested fresh)
        (handleMessage cid (InMsg.registerViewer requested fresh false) s).viewerPeers
      = some { ws := cid, pc := s.nextPc }
    ∧ (alookup s.nextPc
        (handleMessage cid (InMsg.registerViewer requested fresh false) s).pcs).map
          Pc.transceivers
      = some [{ direction := Dir.sendonly, track := broadcasterTrack s }] := by
  rw [handleMessage_registerViewer_eq hc]
  set vid := resolveViewerId requested fresh with hvid
  set s1 : ServerState := { s with conns := aupdate cid (fun c => { c with role := some Role.viewer, viewerId := some vid }) s.conns } with hs1
  have hnext : (cleanupViewer vid s1).nextPc = s.nextPc := by
    rw [cleanupViewer_nextPc]
  have hbt : broadcasterTrack (cleanupViewer vid s1) = broadcasterTrack s := by
    rw [broadcasterTrack_cleanupViewer]
    rfl
  have hfresh1 : alookup s.nextPc s1.pcs = none := hfresh
  constructor
  · simp only [maybeNotifyNoBroadcaster_viewerPeers, notifyViewerCount_viewerPeers,
      send_viewerPeers]
    rw [createViewerPeer_ok_eq]
    simp only [send_viewerPeers, cleanupViewer_viewerPeers, hnext]
    rw [alookup_append_of_none (alookup_aerase_self _ _)]
    simp
  · simp only [maybeNotifyNoBroadcaster_pcs, notifyViewerCount_pcs, send_pcs]
    rw [createViewerPeer_ok_eq]
    simp only [send_pcs, hnext, hbt]
    rw [alookup_aupdate_self]
    have hnone : alookup s.nextPc (cleanupViewer vid s1).pcs = none := by
      rcases hl : alookup vid s1.viewerPeers with _ | oldp
      · rw [cleanupViewer_pcs_of_none hl]
        exact hfresh1
      · rw [cleanupViewer_pcs_of_some hl]
        exact alookup_aupdate_none _ _ hfresh1
    rw [alookup_append_of_none hnone]
    simp [freshViewerPc]

/-- C4 witness: registering viewer "v" on a fresh connection with no
broadcaster present reserves an empty sendonly slot on the new pc. -/
theorem c4_witness :
    alookup "v" (handleMessage 0 (InMsg.registerViewer (some "v") "u" false) wsConn).viewerPeers
      = some { ws := 0, pc := 0 }
    ∧ (alookup 0 (handleMessage 0 (InMsg.registerViewer (some "v") "u" false) wsConn).pcs).map
        Pc.transceivers
      = some [{ direction := Dir.sendonly, track := broadcasterTrack wsConn }] :=
  c4_viewer_slot_reserved wsConn 0 { role := none, viewerId := none } (some "v") "u"
    (by decide) (by decide)

/-- C1 counterexample: after broadcaster B2 replaces B1, the viewer's sending
slot still references B1's video track — the old broadcaster's shared track
reference is not cleared from the viewers' slots, so a trace of B1's
resources remains (B1's peer connection itself is closed and the registry
reference is dropped). -/
theorem c1_counterexample :
    cexStateC1.broadcasterPeer = some { ws := 2, pc := 2, videoTrack := none }
    ∧ alookup "v" cexStateC1.viewerPeers = some { ws := 1, pc := 1 }
    ∧ (alookup 1 cexStateC1.pcs).map Pc.transceivers
        = some [{ direction := Dir.sendonly, track := some tVideo }]
    ∧ (alookup 0 cexStateC1.pcs).map Pc.closed = some true := by
  refine ⟨by decide, by decide, by decide, by decide⟩

/-- C1 (amended): at most one broadcaster session exists structurally (the
registry is an optional singleton), and registering a new broadcaster first
destroys the prior one — its peer connection is closed and the registry
(with its video-track reference) is replaced by a fresh session with no
track; viewers' sending slots, however, retain the previously substituted
track until a new track replaces it in place. -/
theorem c1_broadcaster_replacement (s : ServerState) (cid : Nat) (conn : ConnState)
    (b : BroadcasterSession) (pcB : Pc)
    (hc : alookup cid s.conns = some conn)
    (hb : s.broadcasterPeer = some b)
    (hpc : alookup b.pc s.pcs = some pcB) :
    (alookup b.pc (handleMessage cid InMsg.registerBroadcaster s).pcs).map Pc.closed = some true
    ∧ (handleMessage cid InMsg.registerBroadcaster s).broadcasterPeer
        = some { ws := cid, pc := s.nextPc, videoTrack := none }
    ∧ (handleMessage cid InMsg.registerBroadcaster s).broadcasterWs = some cid
    ∧ (handleMessage cid InMsg.registerBroadcaster s).viewerPeers = s.viewerPeers := by
  rw [handleMessage_registerBroadcaster_eq hc]
  set s1 : ServerState := { s with conns := aupdate cid (fun c => { c with role := some Role.broadcaster }) s.conns } with hs1
  have hb1 : (clearBroadcasterTimer s1).broadcasterPeer = some b := by
    rw [clearBroadcasterTimer_broadcasterPeer]
    exact hb
  refine ⟨?_, ?_, ?_, ?_⟩
  · simp only [send_pcs, createBroadcasterPeer_pcs]
    rw [cleanupBroadcaster_pcs_of_some hb1]
    have hpc1 : alookup b.pc (clearBroadcasterTimer s1).pcs = some pcB := by
      rw [clearBroadcasterTimer_pcs]
      exact hpc
    rw [alookup_append_of_some (show alookup b.pc
          (aupdate b.pc closePc (clearBroadcasterTimer s1).pcs) = some (closePc pcB) from by
        rw [alookup_aupdate_self, hpc1]; rfl)]
    rfl
  · simp only [send_broadcasterPeer, createBroadcasterPeer_broadcasterPeer,
      clearBroadcasterTimer_nextPc]
  · simp only [send_broadcasterWs, createBroadcasterPeer_broadcasterWs]
  · simp only [send_viewerPeers, createBroadcasterPeer_viewerPeers,
      clearBroadcasterTimer_viewerPeers]

/-- C1 witness: registering a second broadcaster from connection 1 closes the
first broadcaster's peer connection and installs a fresh trackless session. -/
theorem c1_witness :
    wsBV.broadcasterPeer = some { ws := 0, pc := 0, videoTrack := none }
    ∧ (alookup 0 (handleMessage 1 InMsg.registerBroadcaster wsBV).pcs).map Pc.closed = some true
    ∧ (handleMessage 1 InMsg.registerBroadcaster wsBV).broadcasterPeer
        = some { ws := 1, pc := 2, videoTrack := none } := by
  have h := c1_broadcaster_replacement wsBV 1 { role := some Role.viewer, viewerId := some "v" }
    { ws := 0, pc := 0, videoTrack := none } freshBroadcasterPc
    (by decide) (by decide) (by decide)
  exact ⟨by decide, h.1, h.2.1⟩

/-- C6 counterexample: broadcaster connections 0 and 1 both close, arming two
timers, of which only the one armed last is referenced; a new broadcaster
(connection 3) registers before either fires, yet the earlier timer is still
armed afterwards, and when it fires the viewer (ws 2) receives a
broadcasterDisconnected message — refuting that a registration before the
timer fires cancels the timer so that no such message is ever sent. -/
theorem c6_counterexample :
    cexStateC6.broadcasterPeer = some { ws := 3, pc := 3, videoTrack := none }
    ∧ 0 ∈ cexStateC6.liveTimers
    ∧ (2, OutMsg.broadcasterDisconnected false) ∉ cexStateC6.outbox
    ∧ (2, OutMsg.broadcasterDisconnected false) ∈ (fireTimeout 0 cexStateC6).outbox := by
  refine ⟨by decide, by decide, by decide, by decide⟩

/-- C6 (amended): broadcaster channel closure arms a fresh single-shot timer
and makes it the referenced one, without cancelling a previously armed timer;
registering a broadcaster cancels only the referenced timer — when that timer
is the only armed one, the live-timer set empties and a subsequent firing is
a no-op — and any armed timer that does fire delivers broadcasterDisconnected
with permanent:false to every current viewer. -/
theorem c6_timer_behavior :
    (∀ s cid v, alookup cid s.conns = some { role := some Role.broadcaster, viewerId := v } →
      (handleClose cid s).liveTimers = s.liveTimers ++ [s.nextTimer]
      ∧ (handleClose cid s).timerRef = some s.nextTimer)
    ∧ (∀ s cid conn i, alookup cid s.conns = some conn → s.timerRef = some i →
        s.liveTimers = [i] →
        (handleMessage cid InMsg.registerBroadcaster s).liveTimers = []
        ∧ ∀ j, fireTimeout j (handleMessage cid InMsg.registerBroadcaster s)
            = handleMessage cid InMsg.registerBroadcaster s)
    ∧ (∀ s i, i ∈ s.liveTimers →
        (fireTimeout i s).outbox
          = s.outbox ++ s.viewerPeers.map (fun pr => (pr.2.ws, OutMsg.broadcasterDisconnected false))) := by
  refine ⟨?_, ?_, ?_⟩
  · intro s cid v hc
    unfold handleClose
    rw [hc]
    exact ⟨by simp, by simp⟩
  · intro s cid conn i hc href hlive
    have hLT : (handleMessage cid InMsg.registerBroadcaster s).liveTimers = [] := by
      rw [handleMessage_registerBroadcaster_eq hc]
      simp only [send_liveTimers, createBroadcasterPeer_liveTimers]
      set s1 : ServerState := { s with conns := aupdate cid (fun c => { c with role := some Role.broadcaster }) s.conns } with hs1
      have href1 : s1.timerRef = some i := href
      rw [(clearBroadcasterTimer_of_some href1).1]
      have hlive1 : s1.liveTimers = [i] := hlive
      rw [hlive1]
      simp
    refine ⟨hLT, ?_⟩
    intro j
    unfold fireTimeout
    rw [hLT]
    simp
  · intro s i hm
    unfold fireTimeout
    rw [if_pos hm]
    rfl

/-- C6 witness: closing the broadcaster's channel arms the 30-second timer
and records it as the referenced timer. -/
theorem c6_witness :
    alookup 0 wsBV.conns = some { role := some Role.broadcaster, viewerId := none }
    ∧ (handleClose 0 wsBV).liveTimers = wsBV.liveTimers ++ [wsBV.nextTimer]
    ∧ (handleClose 0 wsBV).timerRef = some wsBV.nextTimer :=
  ⟨by decide,
   (c6_timer_behavior.1 wsBV 0 none (by decide)).1,
   (c6_timer_behavior.1 wsBV 0 none (by decide)).2⟩

/-- C7 counterexample: a failure creating the initial offer during viewer
registration does not leave the session intact: the just-created session for
"v" is torn down — its roster entry is gone and its peer connection closed —
even though the registered acknowledgement was still sent. -/
theorem c7_counterexample :
    alookup "v" cexStateC7.viewerPeers = none
    ∧ (alookup 0 cexStateC7.pcs).map Pc.closed = some true
    ∧ (0, OutMsg.registeredV "v") ∈ cexStateC7.outbox := by
  refine ⟨by decide, by decide, by decide⟩

/-- C7 (amended): an SDP error in the broadcaster offer handler leaves the
broadcaster registry entry, the viewer roster and the peer connection's
closed state untouched, and an error applying a viewer's answer leaves the
whole state unchanged; but a failure creating the initial offer during viewer
registration instead tears that viewer session down (roster entry removed,
fresh peer connection closed). -/
theorem c7_sdp_error_handling :
    (∀ s cid v sdp j, alookup cid s.conns = some { role := some Role.broadcaster, viewerId := v } →
      (handleMessage cid (InMsg.offer sdp (some j)) s).broadcasterPeer = s.broadcasterPeer
      ∧ (handleMessage cid (InMsg.offer sdp (some j)) s).viewerPeers = s.viewerPeers
      ∧ ∀ b, s.broadcasterPeer = some b →
          (alookup b.pc (handleMessage cid (InMsg.offer sdp (some j)) s).pcs).map Pc.closed
            = (alookup b.pc s.pcs).map Pc.closed)
    ∧ (∀ s cid vid sdp bad,
        alookup cid s.conns = some { role := some Role.viewer, viewerId := some vid } →
        handleMessage cid (InMsg.answer sdp true bad) s = s)
    ∧ (∀ s cid conn requested fresh,
        alookup cid s.conns = some conn →
        alookup s.nextPc s.pcs = none →
        alookup (resolveViewerId requested fresh)
            (handleMessage cid (InMsg.registerViewer requested fresh true) s).viewerPeers = none
        ∧ (alookup s.nextPc
            (handleMessage cid (InMsg.registerViewer requested fresh true) s).pcs).map Pc.closed
          = some true) := by
  refine ⟨?_, ?_, ?_⟩
  · intro s cid v sdp j hc
    rw [handleMessage_offer_broadcaster hc]
    unfold handleOffer
    rcases hb : s.broadcasterPeer with _ | b2
    · exact ⟨hb, rfl, fun b hb2 => Option.noConfusion hb2⟩
    · rcases j with _ | j
      · exact ⟨hb, rfl, fun b hb2 => rfl⟩
      · refine ⟨rfl, rfl, ?_⟩
        intro b hb2
        injection hb2 with hb3
        subst hb3
        exact alookup_aupdate_closed _ _ (fun _ => rfl)
  · intro s cid vid sdp bad hc
    rw [handleMessage_answer_viewer hc]
    unfold handleAnswer
    rcases hl : alookup vid s.viewerPeers with _ | peer
    · rfl
    · rfl
  · intro s cid conn requested fresh hc hfresh
    rw [handleMessage_registerViewer_eq hc]
    set vid := resolveViewerId requested fresh with hvid
    set s1 : ServerState := { s with conns := aupdate cid (fun c => { c with role := some Role.viewer, viewerId := some vid }) s.conns } with hs1
    have hfresh1 : alookup s.nextPc s1.pcs = none := hfresh
    have hnext : (cleanupViewer vid s1).nextPc = s.nextPc := by
      rw [cleanupViewer_nextPc]
    have hmid : alookup vid ((cleanupViewer vid s1).viewerPeers
        ++ [(vid, ({ ws := cid, pc := (cleanupViewer vid s1).nextPc } : ViewerSession))])
        = some { ws := cid, pc := (cleanupViewer vid s1).nextPc } := by
      rw [cleanupViewer_viewerPeers, alookup_append_of_none (alookup_aerase_self _ _)]
      simp
    have hnone : alookup s.nextPc (cleanupViewer vid s1).pcs = none := by
      rcases hl : alookup vid s1.viewerPeers with _ | oldp
      · rw [cleanupViewer_pcs_of_none hl]
        exact hfresh1
      · rw [cleanupViewer_pcs_of_some hl]
        exact alookup_aupdate_none _ _ hfresh1
    constructor
    · simp only [maybeNotifyNoBroadcaster_viewerPeers, notifyViewerCount_viewerPeers,
        send_viewerPeers]
      rw [createViewerPeer_fail_eq]
      rw [cleanupViewer_viewerPeers]
      exact alookup_aerase_self _ _
    · simp only [maybeNotifyNoBroadcaster_pcs, notifyViewerCount_pcs, send_pcs]
      rw [createViewerPeer_fail_eq]
      rw [cleanupViewer_pcs_of_some hmid]
      dsimp only
      rw [hnext, alookup_aupdate_self, alookup_append_of_none hnone]
      simp [closePc, freshViewerPc]

/-- C7 witness: a failed answer application leaves the state unchanged. -/
theorem c7_witness :
    alookup 0 wsViewer.conns = some { role := some Role.viewer, viewerId := some "v" }
    ∧ handleMessage 0 (InMsg.answer 9 true []) wsViewer = wsViewer :=
  ⟨by decide, c7_sdp_error_handling.2.1 wsViewer 0 "v" 9 [] (by decide)⟩
